import Mathlib

/-
Verification development for the random-dot-kinematogram motion core
(src/RandomDotKinematogram.tsx): role assignment, aperture geometry,
dot lifecycle/movement/reinsertion, refresh-rate calibration and the
trial-end clock.  Numbers are modelled exactly: rationals for the
timing/counting code, reals for the geometry (which uses cos/sin/sqrt).
Randomness is passed in explicitly: every Math.random() draw (a value in
[0,1)) or sampled angle becomes an argument, so theorems quantify over
all possible outcomes of the draws.
-/

open Classical

/-- Movement roles of a dot, from the FrameMovement union type:
coherent / opposite plus the three noise movements. -/
inductive FrameMovement where
  | coherent
  | opposite
  | randomTeleport
  | randomWalk
  | randomDirection
  deriving DecidableEq

/-- Role assignment with exact counts, from generateShuffledAssignments.
The external shuffle (imported from the reactive library, not part of this
repository) is passed in as the function argument shuffleFn; theorems
quantify over all shuffleFn that return a permutation of their input,
modelling the spec's uniformly shuffled permutation.  JavaScript's
Array(n) throws a RangeError for n < 0, which the embedding models by
returning none when any of the three computed lengths is negative. -/
def generateShuffledAssignments (dotCount : ℕ) (coherence opposite : ℚ)
    (noiseMovement : FrameMovement)
    (shuffleFn : List FrameMovement → List FrameMovement) :
    Option (List FrameMovement) :=
  let nCoherent : ℤ := Int.floor ((dotCount : ℚ) * coherence)
  let nOpposite : ℤ := Int.floor ((dotCount : ℚ) * opposite)
  let nNoise : ℤ := (dotCount : ℤ) - nCoherent - nOpposite
  if nCoherent < 0 ∨ nOpposite < 0 ∨ nNoise < 0 then none
  else
    some (shuffleFn
      (List.replicate nCoherent.toNat FrameMovement.coherent ++
        List.replicate nOpposite.toNat FrameMovement.opposite ++
        List.replicate nNoise.toNat noiseMovement))

/-- Refresh-rate calibration state: the rolling sample buffer
(frameIntervalsRef), the current estimate (estimatedFrameIntervalRef,
null until first computed) and the calibrated flag (isCalibrated). -/
structure CalibState where
  frameIntervals : List ℚ
  estimatedFrameInterval : Option ℚ
  isCalibrated : Bool
  deriving DecidableEq

/-- Number of samples collected before calibrating (CALIBRATION_FRAME_COUNT). -/
def CALIBRATION_FRAME_COUNT : ℕ := 10

/-- Smoothing factor for the exponential moving average (EMA_ALPHA = 0.1). -/
def EMA_ALPHA : ℚ := 1 / 10

/-- Ascending numeric sort, modelling [...].sort((a, b) => a - b).  On a
linearly ordered type the ascending sorted permutation of a list is unique,
so insertion sort gives exactly the list the JavaScript sort produces. -/
def jsSortAsc (l : List ℚ) : List ℚ := l.insertionSort (fun a b => a ≤ b)

/-- Median of an already sorted buffer, from the calibration branch:
mid = floor(length / 2); odd length takes sorted[mid], even length averages
sorted[mid - 1] and sorted[mid]. -/
def medianOfSorted (sorted : List ℚ) : ℚ :=
  let mid := sorted.length / 2
  if sorted.length % 2 = 1 then sorted.getD mid 0
  else (sorted.getD (mid - 1) 0 + sorted.getD mid 0) / 2

/-- One frame of the refresh-rate estimator, from the calibration block of
the animate callback.  Deltas outside (0, 500) are ignored; while
uncalibrated the delta is appended and, once 10 samples are present, the
median becomes the estimate and the flag flips; once calibrated the
estimate is refined by the exponential moving average.  The source reads
the estimate with a non-null assertion in the EMA branch, modelled by
getD 0. -/
def calibStep (s : CalibState) (frameDelta : ℚ) : CalibState :=
  if 0 < frameDelta ∧ frameDelta < 500 then
    if s.isCalibrated = false then
      let intervals := s.frameIntervals ++ [frameDelta]
      if CALIBRATION_FRAME_COUNT ≤ intervals.length then
        { frameIntervals := intervals
          estimatedFrameInterval := some (medianOfSorted (jsSortAsc intervals))
          isCalibrated := true }
      else { s with frameIntervals := intervals }
    else
      let newEstimate := EMA_ALPHA * frameDelta +
        (1 - EMA_ALPHA) * s.estimatedFrameInterval.getD 0
      { s with estimatedFrameInterval := some newEstimate }
  else s

/-- Calibration state at trial start: empty buffer, null estimate,
uncalibrated. -/
def initialCalibState : CalibState :=
  { frameIntervals := [], estimatedFrameInterval := none, isCalibrated := false }

/-- Feeding a sequence of frame deltas through the estimator from the
initial state. -/
def runCalib (deltas : List ℚ) : CalibState :=
  deltas.foldl calibStep initialCalibState

/-- Half-frame timing correction, from the animate callback:
isCalibrated && estimatedFrameInterval ? estimatedFrameInterval * 0.5 : 0.
The JavaScript truthiness test on the estimate makes a zero estimate
behave like a missing one. -/
def halfFrameCorrection (s : CalibState) : ℚ :=
  match s.estimatedFrameInterval with
  | some est => if s.isCalibrated = true ∧ est ≠ 0 then est * (1 / 2) else 0
  | none => 0

/-- Corrected elapsed trial time: elapsed plus the half-frame correction. -/
def correctedElapsed (elapsed : ℚ) (s : CalibState) : ℚ :=
  elapsed + halfFrameCorrection s

/-- Whether the trial-end edge fires on one frame, from the trial-timing
block: duration > 0 && !trialEndedRef.current && correctedElapsed >=
fixationTime + duration. -/
def trialEndFire (fixationTime duration : ℚ) (trialEndedLatch : Bool)
    (corrected : ℚ) : Bool :=
  decide (0 < duration) && !trialEndedLatch &&
    decide (fixationTime + duration ≤ corrected)

/-- Running the trial-end edge over a sequence of frames, each frame given
by its raw elapsed time and the calibration state in effect when the
timing check runs.  Returns, per frame, whether the edge fired; the latch
(trialEndedRef) is set permanently by a firing. -/
def trialEndRun (fixationTime duration : ℚ) (latch : Bool) :
    List (ℚ × CalibState) → List Bool
  | [] => []
  | frame :: frames =>
    let fires := trialEndFire fixationTime duration latch
      (correctedElapsed frame.1 frame.2)
    fires :: trialEndRun fixationTime duration (latch || fires) frames

/-- Aperture shapes, from the ApertureShape union type. -/
inductive ApertureShape where
  | circle
  | ellipse
  | square
  | rectangle
  deriving DecidableEq

/-- An aperture, from the parameters of createAperture: a shape together
with the configured width, height and center.  circle and ellipse form the
elliptical family, square and rectangle the rectangular family. -/
structure Aperture where
  shape : ApertureShape
  width : ℝ
  height : ℝ
  centerX : ℝ
  centerY : ℝ

/-- Horizontal semi-axis / half-width: width / 2. -/
noncomputable def Aperture.horizontalAxis (ap : Aperture) : ℝ := ap.width / 2

/-- Vertical semi-axis / half-height: equal to the horizontal one for
circle and square, else height / 2. -/
noncomputable def Aperture.verticalAxis (ap : Aperture) : ℝ :=
  if ap.shape = ApertureShape.circle ∨ ap.shape = ApertureShape.square then
    ap.horizontalAxis
  else ap.height / 2

/-- The point min + r * (max - min), modelling randomBetween(min, max)
where r stands for the Math.random() draw in [0, 1). -/
noncomputable def randomBetween (lo hi r : ℝ) : ℝ := lo + r * (hi - lo)

/-- Integer truncation toward zero, as used by the JavaScript % operator. -/
noncomputable def jsTrunc (x : ℝ) : ℤ :=
  if 0 ≤ x then Int.floor x else Int.ceil x

/-- The JavaScript remainder a % b: a minus b times the truncated
quotient, so the result carries the sign of the dividend. -/
noncomputable def jsRem (a b : ℝ) : ℝ := a - b * (jsTrunc (a / b) : ℝ)

/-- Toroidal wrap on the bounding box, from wrapOnBounds: each axis is
independently reduced to [center - extent, center + extent) by the
double-remainder idiom ((v % span) + span) % span. -/
noncomputable def Aperture.wrap (ap : Aperture) (x y : ℝ) : ℝ × ℝ :=
  let w := ap.horizontalAxis * 2
  let h := ap.verticalAxis * 2
  let left := ap.centerX - ap.horizontalAxis
  let top := ap.centerY - ap.verticalAxis
  (jsRem (jsRem (x - left) w + w) w + left,
   jsRem (jsRem (y - top) h + h) h + top)

/-- Boundary test, from isOutside(x, y, margin): the aperture is expanded
by the margin on each extent; the elliptical family tests the normalized
quadratic form against 1, the rectangular family tests each axis. -/
def Aperture.isOutside (ap : Aperture) (x y margin : ℝ) : Prop :=
  if ap.shape = ApertureShape.circle ∨ ap.shape = ApertureShape.ellipse then
    let effH := ap.horizontalAxis + margin
    let effV := ap.verticalAxis + margin
    let dx := (x - ap.centerX) / effH
    let dy := (y - ap.centerY) / effV
    dx * dx + dy * dy > 1
  else
    let effH := ap.horizontalAxis + margin
    let effV := ap.verticalAxis + margin
    x < ap.centerX - effH ∨ x > ap.centerX + effH ∨
      y < ap.centerY - effV ∨ y > ap.centerY + effV

/-- Uniform interior sample, from getRandomPosition.  The elliptical
family samples an angle phi uniform in [-pi, pi) and a radius
rho = sqrt(uniform), the rectangular family samples each axis
independently; r1 and r2 stand for the two Math.random() draws. -/
noncomputable def Aperture.getRandomPosition (ap : Aperture) (r1 r2 : ℝ) : ℝ × ℝ :=
  if ap.shape = ApertureShape.circle ∨ ap.shape = ApertureShape.ellipse then
    let phi := randomBetween (-Real.pi) Real.pi r1
    let rho := Real.sqrt r2
    (Real.cos phi * rho * ap.horizontalAxis + ap.centerX,
     Real.sin phi * rho * ap.verticalAxis + ap.centerY)
  else
    (randomBetween (ap.centerX - ap.horizontalAxis)
        (ap.centerX + ap.horizontalAxis) r1,
     randomBetween (ap.centerY - ap.verticalAxis)
        (ap.centerY + ap.verticalAxis) r2)

/-- A dot, from the Dot interface: position, stored random direction
(meaningful only for the randomDirection role), life counter and role. -/
structure Dot where
  x : ℝ
  y : ℝ
  randomDirX : ℝ
  randomDirY : ℝ
  lifeCount : ℝ
  assignedMovement : FrameMovement

/-- Direction-agnostic reinsertion, from getOppositePositionSimple.
Elliptical family: mirror through the center, and clamp radially onto the
boundary if the mirrored point is still outside.  Rectangular family: flip
any axis that is out of range to the opposite edge. -/
noncomputable def Aperture.getOppositePositionSimple (ap : Aperture) (dot : Dot) : ℝ × ℝ :=
  if ap.shape = ApertureShape.circle ∨ ap.shape = ApertureShape.ellipse then
    let mirroredX := 2 * ap.centerX - dot.x
    let mirroredY := 2 * ap.centerY - dot.y
    let mx := (mirroredX - ap.centerX) / ap.horizontalAxis
    let my := (mirroredY - ap.centerY) / ap.verticalAxis
    let dist := Real.sqrt (mx * mx + my * my)
    if dist > 1 then
      (ap.centerX + mx / dist * ap.horizontalAxis,
       ap.centerY + my / dist * ap.verticalAxis)
    else (mirroredX, mirroredY)
  else
    let left := ap.centerX - ap.horizontalAxis
    let right := ap.centerX + ap.horizontalAxis
    let top := ap.centerY - ap.verticalAxis
    let bottom := ap.centerY + ap.verticalAxis
    let x := if dot.x < left then right else if dot.x > right then left else dot.x
    let y := if dot.y < top then bottom else if dot.y > bottom then top else dot.y
    (x, y)

/-- Ray-cast reinsertion, from getOppositePosition.  The direction of
travel is optional, matching the optional dirX/dirY parameters.
Elliptical family: normalize the direction, substitute the backward ray
into the implicit ellipse equation and take the larger root; any failed
guard (missing direction, near-zero magnitude, negative discriminant,
non-positive root) falls back to the simple policy.  In exact real
arithmetic the root is always finite, so the source's Number.isFinite
guard is always true.  Rectangular family: slab method on the four edges;
when the direction is parallel to an axis the source computes that slab's
parameters as -Infinity, which forces tExit = -Infinity and fails the
tExit > 0 guard, so the embedding falls back directly in that case. -/
noncomputable def Aperture.getOppositePosition (ap : Aperture) (dot : Dot)
    (dirX dirY : Option ℝ) : ℝ × ℝ :=
  if ap.shape = ApertureShape.circle ∨ ap.shape = ApertureShape.ellipse then
    match dirX, dirY with
    | some dirX, some dirY =>
      let dirMagSq := dirX * dirX + dirY * dirY
      if dirMagSq > 1 / 10 ^ 10 then
        let mag := Real.sqrt dirMagSq
        let dx := dirX / mag
        let dy := dirY / mag
        let xRel := dot.x - ap.centerX
        let yRel := dot.y - ap.centerY
        let a2 := ap.horizontalAxis * ap.horizontalAxis
        let b2 := ap.verticalAxis * ap.verticalAxis
        let A := dx * dx / a2 + dy * dy / b2
        let B := xRel * dx / a2 + yRel * dy / b2
        let C := xRel * xRel / a2 + yRel * yRel / b2 - 1
        let discriminant := B * B - A * C
        if discriminant ≥ 0 then
          let t := (B + Real.sqrt discriminant) / A
          if t > 0 then (dot.x - dx * t, dot.y - dy * t)
          else ap.getOppositePositionSimple dot
        else ap.getOppositePositionSimple dot
      else ap.getOppositePositionSimple dot
    | _, _ => ap.getOppositePositionSimple dot
  else
    match dirX, dirY with
    | some dirX, some dirY =>
      let mag := Real.sqrt (dirX * dirX + dirY * dirY)
      if mag < 1 / 10 ^ 10 then ap.getOppositePositionSimple dot
      else
        let dx := -dirX / mag
        let dy := -dirY / mag
        let left := ap.centerX - ap.horizontalAxis
        let right := ap.centerX + ap.horizontalAxis
        let top := ap.centerY - ap.verticalAxis
        let bottom := ap.centerY + ap.verticalAxis
        if dx = 0 ∨ dy = 0 then ap.getOppositePositionSimple dot
        else
          let tx1 := (left - dot.x) / dx
          let tx2 := (right - dot.x) / dx
          let ty1 := (top - dot.y) / dy
          let ty2 := (bottom - dot.y) / dy
          let tEnter := max (min tx1 tx2) (min ty1 ty2)
          let tExit := min (max tx1 tx2) (max ty1 ty2)
          if tExit > 0 ∧ tEnter ≤ tExit then
            (dot.x + dx * tExit, dot.y + dy * tExit)
          else ap.getOppositePositionSimple dot
    | _, _ => ap.getOppositePositionSimple dot

/-- Random draws consumed by one updateDot call, one field per potential
Math.random() use: the respawn position after life expiry, the angle
resampled when reassigned to randomDirection, the teleport position, the
random-walk angle, and the position used by random reinsertion.  The
position draws stand for Math.random() values in [0, 1); the angles stand
for the value of randomBetween(-pi, pi). -/
structure UpdateRand where
  respawnR1 : ℝ
  respawnR2 : ℝ
  reassignTheta : ℝ
  teleportR1 : ℝ
  teleportR2 : ℝ
  walkTheta : ℝ
  reinsertR1 : ℝ
  reinsertR2 : ℝ

/-- The position draws of an UpdateRand lie in [0, 1), as Math.random()
guarantees. -/
def UpdateRand.valid (rand : UpdateRand) : Prop :=
  0 ≤ rand.respawnR1 ∧ rand.respawnR1 < 1 ∧
  0 ≤ rand.respawnR2 ∧ rand.respawnR2 < 1 ∧
  0 ≤ rand.teleportR1 ∧ rand.teleportR1 < 1 ∧
  0 ≤ rand.teleportR2 ∧ rand.teleportR2 < 1 ∧
  0 ≤ rand.reinsertR1 ∧ rand.reinsertR1 < 1 ∧
  0 ≤ rand.reinsertR2 ∧ rand.reinsertR2 < 1

/-- Dot construction, from createDot: a random interior position; for the
randomDirection role an angle theta sampled by randomBetween(-pi, pi)
(passed in as thetaSample), else theta = 0; the stored direction uses the
source's JavaScript truthiness test `theta ? cos/sin : 0`, so a sampled
theta of exactly 0 stores (0, 0); the life counter starts at a uniform
draw in [0, maxDotLife] when lifetime limiting is enabled, else 0. -/
noncomputable def createDot (assignedMovement : FrameMovement) (maxDotLife : ℝ)
    (ap : Aperture) (posR1 posR2 thetaSample lifeR : ℝ) : Dot :=
  let pos := ap.getRandomPosition posR1 posR2
  let theta := if assignedMovement = FrameMovement.randomDirection then thetaSample else 0
  { x := pos.1
    y := pos.2
    randomDirX := if theta ≠ 0 then Real.cos theta else 0
    randomDirY := if theta ≠ 0 then -Real.sin theta else 0
    lifeCount := randomBetween 0 (if maxDotLife > 0 then maxDotLife else 0) lifeR
    assignedMovement := assignedMovement }

/-- The movement method used this step: the reassignment when one is
supplied for this tick, else the dot's assigned movement. -/
def methodAfterReassign (dot : Dot) (reassignMovementTo : Option FrameMovement) :
    FrameMovement :=
  reassignMovementTo.getD dot.assignedMovement

/-- The stored random direction after the reassignment step: regenerated
from a fresh angle when the dot is reassigned to randomDirection, else
unchanged. -/
noncomputable def randomDirAfterReassign (dot : Dot)
    (reassignMovementTo : Option FrameMovement) (rand : UpdateRand) : ℝ × ℝ :=
  if reassignMovementTo = some FrameMovement.randomDirection then
    (Real.cos rand.reassignTheta, -Real.sin rand.reassignTheta)
  else (dot.randomDirX, dot.randomDirY)

/-- Movement direction by role, from the switch in updateDot: coherent
follows coherentDir, opposite its negation, randomWalk a freshly sampled
angle, randomDirection the dot's stored direction; randomTeleport never
moves, so its direction is the untouched initial (0, 0). -/
noncomputable def moveDirection (method : FrameMovement) (coherentDir : ℝ × ℝ)
    (randomDir : ℝ × ℝ) (rand : UpdateRand) : ℝ × ℝ :=
  match method with
  | FrameMovement.coherent => coherentDir
  | FrameMovement.opposite => (-coherentDir.1, -coherentDir.2)
  | FrameMovement.randomTeleport => (0, 0)
  | FrameMovement.randomWalk => (Real.cos rand.walkTheta, -Real.sin rand.walkTheta)
  | FrameMovement.randomDirection => randomDir

/-- Whether this step's life-counter increment reaches the lifetime limit,
from the respawn test maxDotLife > 0 && updated.lifeCount >= maxDotLife. -/
def lifeExpired (dot : Dot) (deltaTimeMs maxDotLife : ℝ) : Prop :=
  maxDotLife > 0 ∧ dot.lifeCount + deltaTimeMs ≥ maxDotLife

/-- The position a dot moves to before any boundary handling:
old position plus direction times distance. -/
noncomputable def movedPosition (dot : Dot) (distance : ℝ) (coherentDir : ℝ × ℝ)
    (reassignMovementTo : Option FrameMovement) (rand : UpdateRand) : ℝ × ℝ :=
  let method := methodAfterReassign dot reassignMovementTo
  let randomDir := randomDirAfterReassign dot reassignMovementTo rand
  let moveDir := moveDirection method coherentDir randomDir rand
  (dot.x + moveDir.1 * distance, dot.y + moveDir.2 * distance)

/-- One dot update, from updateDot.  The life counter grows by
deltaTimeMs; an expired dot respawns at a fresh random position with the
counter reset and nothing else run.  Otherwise a supplied reassignment is
adopted (resampling the stored direction when reassigned to
randomDirection), randomTeleport jumps to a fresh random position with no
boundary check, every other role moves by direction times distance, and a
moved dot that is outside the margin-expanded aperture is reinserted by
the configured policy.  The reinsertion mode is kept as the raw string it
is at runtime; an unrecognized mode throws, modelled by Except.error. -/
noncomputable def updateDot (dot : Dot) (distance deltaTimeMs maxDotLife : ℝ)
    (ap : Aperture) (reinsertType : String) (dotRadius : ℝ)
    (coherentDir : ℝ × ℝ) (reassignMovementTo : Option FrameMovement)
    (rand : UpdateRand) : Except String Dot :=
  let lifeCount := dot.lifeCount + deltaTimeMs
  if maxDotLife > 0 ∧ lifeCount ≥ maxDotLife then
    Except.ok { dot with
      x := (ap.getRandomPosition rand.respawnR1 rand.respawnR2).1
      y := (ap.getRandomPosition rand.respawnR1 rand.respawnR2).2
      lifeCount := 0 }
  else
    let method := methodAfterReassign dot reassignMovementTo
    let randomDir := randomDirAfterReassign dot reassignMovementTo rand
    if method = FrameMovement.randomTeleport then
      Except.ok
        { x := (ap.getRandomPosition rand.teleportR1 rand.teleportR2).1
          y := (ap.getRandomPosition rand.teleportR1 rand.teleportR2).2
          randomDirX := randomDir.1
          randomDirY := randomDir.2
          lifeCount := lifeCount
          assignedMovement := method }
    else
      let moveDir := moveDirection method coherentDir randomDir rand
      let movedX := dot.x + moveDir.1 * distance
      let movedY := dot.y + moveDir.2 * distance
      let moved : Dot :=
        { x := movedX
          y := movedY
          randomDirX := randomDir.1
          randomDirY := randomDir.2
          lifeCount := lifeCount
          assignedMovement := method }
      if ap.isOutside movedX movedY dotRadius then
        if reinsertType = "random" then
          Except.ok { moved with
            x := (ap.getRandomPosition rand.reinsertR1 rand.reinsertR2).1
            y := (ap.getRandomPosition rand.reinsertR1 rand.reinsertR2).2 }
        else if reinsertType = "oppositeSimple" then
          Except.ok { moved with
            x := (ap.getOppositePositionSimple moved).1
            y := (ap.getOppositePositionSimple moved).2 }
        else if reinsertType = "opposite" then
          Except.ok { moved with
            x := (ap.getOppositePosition moved (some moveDir.1) (some moveDir.2)).1
            y := (ap.getOppositePosition moved (some moveDir.1) (some moveDir.2)).2 }
        else if reinsertType = "wrap" then
          Except.ok { moved with
            x := (ap.wrap movedX movedY).1
            y := (ap.wrap movedX movedY).2 }
        else Except.error ("Unknown reinsertType: " ++ reinsertType)
      else Except.ok moved

/-- The half-open bounding box [center - extent, center + extent) on each
axis that the wrap policy maps into. -/
def inWrapBox (ap : Aperture) (x y : ℝ) : Prop :=
  ap.centerX - ap.horizontalAxis ≤ x ∧ x < ap.centerX + ap.horizontalAxis ∧
  ap.centerY - ap.verticalAxis ≤ y ∧ y < ap.centerY + ap.verticalAxis

/-- Claim C1, counterexample: with count = 1, coherence = 1, opposite = 1
(each fraction in [0,1]), the noise-entry count 1 - 1 - 1 is negative, so
Array(-1) throws a RangeError instead of returning an array of length 1;
the embedding returns none.  The claim as stated therefore fails. -/
theorem generateShuffledAssignments_unit_fractions_throw :
    generateShuffledAssignments 1 1 1 FrameMovement.randomWalk id = none := by
  norm_num [generateShuffledAssignments]

/-- Claim C1 (amended): for every count, fractions in [0,1] whose floored
counts fit into the population, every noise role distinct from coherent
and opposite, and every shuffle outcome (any permutation-producing
shuffle), generateShuffledAssignments returns an array of length count
with exactly floor(count * coherence) coherent entries, exactly
floor(count * opposite) opposite entries, and every remaining entry equal
to the noise role. -/
theorem generateShuffledAssignments_exact_counts
    (dotCount : ℕ) (coherence opposite : ℚ) (noiseMovement : FrameMovement)
    (shuffleFn : List FrameMovement → List FrameMovement)
    (hcoh0 : 0 ≤ coherence) (hcoh1 : coherence ≤ 1)
    (hopp0 : 0 ≤ opposite) (hopp1 : opposite ≤ 1)
    (hperm : ∀ l, (shuffleFn l).Perm l)
    (hnoiseC : noiseMovement ≠ FrameMovement.coherent)
    (hnoiseO : noiseMovement ≠ FrameMovement.opposite)
    (hsum : Int.floor ((dotCount : ℚ) * coherence) +
      Int.floor ((dotCount : ℚ) * opposite) ≤ (dotCount : ℤ)) :
    ∃ l, generateShuffledAssignments dotCount coherence opposite noiseMovement
        shuffleFn = some l ∧
      l.length = dotCount ∧
      l.count FrameMovement.coherent =
        (Int.floor ((dotCount : ℚ) * coherence)).toNat ∧
      l.count FrameMovement.opposite =
        (Int.floor ((dotCount : ℚ) * opposite)).toNat ∧
      l.count noiseMovement =
        dotCount - (Int.floor ((dotCount : ℚ) * coherence)).toNat -
          (Int.floor ((dotCount : ℚ) * opposite)).toNat ∧
      ∀ m ∈ l, m = FrameMovement.coherent ∨ m = FrameMovement.opposite ∨
        m = noiseMovement := by
  have hnC : (0 : ℤ) ≤ Int.floor ((dotCount : ℚ) * coherence) :=
    Int.floor_nonneg.mpr (by positivity)
  have hnO : (0 : ℤ) ≤ Int.floor ((dotCount : ℚ) * opposite) :=
    Int.floor_nonneg.mpr (by positivity)
  set nC : ℤ := Int.floor ((dotCount : ℚ) * coherence) with hnCdef
  set nO : ℤ := Int.floor ((dotCount : ℚ) * opposite) with hnOdef
  have hnN : (0 : ℤ) ≤ (dotCount : ℤ) - nC - nO := by omega
  set pool : List FrameMovement :=
    List.replicate nC.toNat FrameMovement.coherent ++
      List.replicate nO.toNat FrameMovement.opposite ++
      List.replicate ((dotCount : ℤ) - nC - nO).toNat noiseMovement with hpool
  have hgen : generateShuffledAssignments dotCount coherence opposite noiseMovement
      shuffleFn = some (shuffleFn pool) := by
    rw [generateShuffledAssignments]
    rw [if_neg (by push_neg; exact ⟨hnC, hnO, hnN⟩)]
  have hp : (shuffleFn pool).Perm pool := hperm pool
  refine ⟨shuffleFn pool, hgen, ?_, ?_, ?_, ?_, ?_⟩
  · rw [hp.length_eq, hpool]
    simp only [List.length_append, List.length_replicate]
    omega
  · rw [hp.count_eq, hpool]
    simp [List.count_append, List.count_replicate_self, List.count_replicate,
      hnoiseC, hnoiseO, Ne.symm hnoiseC, Ne.symm hnoiseO]
  · rw [hp.count_eq, hpool]
    simp [List.count_append, List.count_replicate_self, List.count_replicate,
      hnoiseC, hnoiseO, Ne.symm hnoiseC, Ne.symm hnoiseO]
  · rw [hp.count_eq, hpool]
    simp only [List.count_append, List.count_replicate_self, List.count_replicate]
    have e1 : ((FrameMovement.coherent == noiseMovement) = true) = False := by
      simp [Ne.symm hnoiseC]
    have e2 : ((FrameMovement.opposite == noiseMovement) = true) = False := by
      simp [Ne.symm hnoiseO]
    have e3 : ((noiseMovement == FrameMovement.coherent) = true) = False := by
      simp [hnoiseC]
    have e4 : ((noiseMovement == FrameMovement.opposite) = true) = False := by
      simp [hnoiseO]
    simp only [beq_iff_eq] at *
    simp only [e1, e2, if_false]
    omega
  · intro m hm
    have hm2 : m ∈ pool := hp.mem_iff.mp hm
    rw [hpool] at hm2
    rcases List.mem_append.mp hm2 with h | h
    · rcases List.mem_append.mp h with h2 | h2
      · left; exact List.eq_of_mem_replicate h2
      · right; left; exact List.eq_of_mem_replicate h2
    · right; right; exact List.eq_of_mem_replicate h

/-- Claim C1, witness: the spec scenario count = 300, coherence = 0.5,
opposite = 0.1 gives exactly 150 coherent, 30 opposite, 120 noise
entries. -/
theorem generateShuffledAssignments_exact_counts_witness :
    ∃ l, generateShuffledAssignments 300 (1/2) (1/10) FrameMovement.randomWalk
        id = some l ∧
      l.length = 300 ∧ l.count FrameMovement.coherent = 150 ∧
      l.count FrameMovement.opposite = 30 ∧
      l.count FrameMovement.randomWalk = 120 ∧
      ∀ m ∈ l, m = FrameMovement.coherent ∨ m = FrameMovement.opposite ∨
        m = FrameMovement.randomWalk := by
  have hc : (Int.floor (((300 : ℕ) : ℚ) * (1/2))).toNat = 150 := by
    have h150 : Int.floor (((300 : ℕ) : ℚ) * (1/2)) = 150 := by norm_num
    rw [h150]
    rfl
  have ho : (Int.floor (((300 : ℕ) : ℚ) * (1/10))).toNat = 30 := by
    have h30 : Int.floor (((300 : ℕ) : ℚ) * (1/10)) = 30 := by norm_num
    rw [h30]
    rfl
  have h := generateShuffledAssignments_exact_counts 300 (1/2) (1/10)
    FrameMovement.randomWalk id (by norm_num) (by norm_num) (by norm_num)
    (by norm_num) (fun l => List.Perm.refl l) (by decide) (by decide)
    (by norm_num)
  obtain ⟨l, h1, h2, h3, h4, h5, h6⟩ := h
  rw [hc] at h3
  rw [ho] at h4
  rw [hc, ho] at h5
  exact ⟨l, h1, h2, h3, h4, h5, h6⟩

/-- Implausible frame deltas (non-positive or at least 500 ms) leave the
whole estimator state unchanged, in any state. -/
theorem calibStep_discards_invalid (s : CalibState) (d : ℚ)
    (h : d ≤ 0 ∨ 500 ≤ d) : calibStep s d = s := by
  rw [calibStep, if_neg]
  rcases h with h | h
  · exact fun hc => absurd hc.1 (not_lt.mpr h)
  · exact fun hc => absurd hc.2 (not_lt.mpr h)

/-- Collection phase: starting from an uncalibrated state with a partial
buffer and no estimate, feeding valid deltas that bring the buffer to
exactly 10 samples appends them all and calibrates on the last one, with
the median of the full buffer as the estimate. -/
theorem calibStep_collecting (pre : List ℚ) (d : ℚ) (hd : 0 < d ∧ d < 500) :
    calibStep ⟨pre, none, false⟩ d =
      if CALIBRATION_FRAME_COUNT ≤ (pre ++ [d]).length then
        ⟨pre ++ [d], some (medianOfSorted (jsSortAsc (pre ++ [d]))), true⟩
      else ⟨pre ++ [d], none, false⟩ := by
  rw [calibStep, if_pos hd]
  rfl

theorem foldl_calibStep_collect (ds : List ℚ) :
    ∀ pre : List ℚ, (∀ d ∈ ds, 0 < d ∧ d < 500) →
    pre.length + ds.length = CALIBRATION_FRAME_COUNT → ds ≠ [] →
    ds.foldl calibStep ⟨pre, none, false⟩ =
      ⟨pre ++ ds, some (medianOfSorted (jsSortAsc (pre ++ ds))), true⟩ := by
  induction ds with
  | nil => intro pre _ _ hne; exact absurd rfl hne
  | cons d ds ih =>
    intro pre hvalid hlen _
    have hd : 0 < d ∧ d < 500 := hvalid d (List.mem_cons_self d ds)
    rw [List.foldl_cons, calibStep_collecting pre d hd]
    cases ds with
    | nil =>
      rw [List.foldl_nil, if_pos]
      simp only [List.length_append, List.length_singleton, List.length_cons,
        List.length_nil, CALIBRATION_FRAME_COUNT] at hlen ⊢
      omega
    | cons e es =>
      rw [if_neg]
      · have hres := ih (pre ++ [d])
          (fun x hx => hvalid x (List.mem_cons_of_mem d hx))
          (by simp only [List.length_append, List.length_singleton,
                List.length_cons, List.length_nil] at hlen ⊢
              omega)
          (by simp)
        rw [hres]
        simp
      · simp only [List.length_append, List.length_singleton, List.length_cons,
          List.length_nil, CALIBRATION_FRAME_COUNT] at hlen ⊢
        omega

/-- Claim C4: implausible deltas (non-positive or at least 500 ms) are
discarded without touching the buffer, estimate, or flag; after exactly 10
valid deltas from the uncalibrated empty-buffer start, the estimate is the
median of the samples and the calibrated flag is set; for the even count
10 the median averages the two middle entries of the sorted buffer. -/
theorem calibration_ten_valid_deltas_median :
    (∀ (s : CalibState) (d : ℚ), d ≤ 0 ∨ 500 ≤ d → calibStep s d = s) ∧
    (∀ ds : List ℚ, ds.length = 10 → (∀ d ∈ ds, 0 < d ∧ d < 500) →
      runCalib ds = ⟨ds, some (medianOfSorted (jsSortAsc ds)), true⟩) ∧
    (∀ ds : List ℚ, ds.length = 10 → medianOfSorted (jsSortAsc ds) =
      ((jsSortAsc ds).getD 4 0 + (jsSortAsc ds).getD 5 0) / 2) := by
  refine ⟨calibStep_discards_invalid, ?_, ?_⟩
  · intro ds hlen hvalid
    rw [runCalib, initialCalibState]
    have h := foldl_calibStep_collect ds [] hvalid
      (by simp [hlen]; rfl)
      (by intro hnil; rw [hnil] at hlen; simp at hlen)
    simpa using h
  · intro ds hlen
    have hslen : (jsSortAsc ds).length = 10 := by
      rw [jsSortAsc, List.length_insertionSort, hlen]
    rw [medianOfSorted]
    simp only [hslen]
    norm_num

/-- Claim C4, witness: the spec scenario 16,17,16,17,16,17,16,17,16,17
calibrates with estimate 16.5 ms. -/
theorem calibration_ten_valid_deltas_median_witness :
    runCalib [16, 17, 16, 17, 16, 17, 16, 17, 16, 17] =
      ⟨[16, 17, 16, 17, 16, 17, 16, 17, 16, 17], some (33 / 2), true⟩ := by
  have h := calibration_ten_valid_deltas_median.2.1
    [16, 17, 16, 17, 16, 17, 16, 17, 16, 17] (by rfl) (by decide)
  rw [h]
  have hsort : jsSortAsc [16, 17, 16, 17, 16, 17, 16, 17, 16, 17] =
      [16, 16, 16, 16, 16, 17, 17, 17, 17, 17] := by decide
  rw [hsort]
  norm_num [medianOfSorted]

/-- Once the trial-ended latch is set, the edge never fires on any later
frame. -/
theorem trialEndRun_latched_all_false (fixationTime duration : ℚ) :
    ∀ frames : List (ℚ × CalibState),
    ∀ b ∈ trialEndRun fixationTime duration true frames, b = false := by
  intro frames
  induction frames with
  | nil => intro b hb; simp [trialEndRun] at hb
  | cons f fs ih =>
    intro b hb
    rw [trialEndRun] at hb
    simp only [trialEndFire, Bool.not_true, Bool.and_false, Bool.false_and,
      Bool.and_self] at hb
    rcases List.mem_cons.mp hb with h | h
    · simpa using h
    · exact ih b (by simpa using h)

/-- A list whose members are all false reads false at every index. -/
theorem getD_false_of_all_false (l : List Bool) (h : ∀ b ∈ l, b = false)
    (n : ℕ) : l.getD n false = false := by
  rcases Nat.lt_or_ge n l.length with h1 | h1
  · rw [List.getD_eq_getElem l false h1]
    exact h _ (List.getElem_mem h1)
  · exact List.getD_eq_default l false h1

/-- With the latch down, the edge fires at most once over any frame
sequence. -/
theorem trialEndRun_count_le_one (fixationTime duration : ℚ) :
    ∀ frames : List (ℚ × CalibState),
    (trialEndRun fixationTime duration false frames).count true ≤ 1 := by
  intro frames
  induction frames with
  | nil => simp [trialEndRun]
  | cons f fs ih =>
    rw [trialEndRun]
    cases hfire : trialEndFire fixationTime duration false
        (correctedElapsed f.1 f.2) with
    | false =>
      simpa [List.count_cons] using ih
    | true =>
      have hall := trialEndRun_latched_all_false fixationTime duration fs
      have hzero : (trialEndRun fixationTime duration true fs).count true = 0 := by
        rw [List.count_eq_zero]
        intro hmem
        exact absurd (hall true hmem) (by simp)
      simp [List.count_cons, hzero]

/-- With a non-positive duration the edge never fires. -/
theorem trialEndRun_nonpositive_never (fixationTime duration : ℚ)
    (hdur : duration ≤ 0) :
    ∀ (frames : List (ℚ × CalibState)) (latch : Bool),
    ∀ b ∈ trialEndRun fixationTime duration latch frames, b = false := by
  intro frames
  induction frames with
  | nil => intro latch b hb; simp [trialEndRun] at hb
  | cons f fs ih =>
    intro latch b hb
    rw [trialEndRun] at hb
    have hfire : trialEndFire fixationTime duration latch
        (correctedElapsed f.1 f.2) = false := by
      simp [trialEndFire, not_lt.mpr hdur]
    rw [hfire] at hb
    rcases List.mem_cons.mp hb with h | h
    · exact h
    · exact ih (latch || false) b h

/-- With a positive duration and the latch down, the edge fires at index i
exactly when the corrected elapsed time first reaches the threshold
there: it reached it at i and at no earlier frame. -/
theorem trialEndRun_first_reach (fixationTime duration : ℚ)
    (hdur : 0 < duration) :
    ∀ (frames : List (ℚ × CalibState)) (i : ℕ), i < frames.length →
    ((trialEndRun fixationTime duration false frames).getD i false = true ↔
      (fixationTime + duration ≤
          correctedElapsed (frames.getD i (0, initialCalibState)).1
            (frames.getD i (0, initialCalibState)).2 ∧
        ∀ j < i, correctedElapsed (frames.getD j (0, initialCalibState)).1
            (frames.getD j (0, initialCalibState)).2 <
          fixationTime + duration)) := by
  intro frames
  induction frames with
  | nil => intro i hi; simp at hi
  | cons f fs ih =>
    intro i hi
    rw [trialEndRun]
    have hfire : trialEndFire fixationTime duration false
        (correctedElapsed f.1 f.2) =
        decide (fixationTime + duration ≤ correctedElapsed f.1 f.2) := by
      simp [trialEndFire, hdur]
    rw [hfire]
    cases i with
    | zero =>
      simp only [List.getD_cons_zero]
      constructor
      · intro h
        exact ⟨of_decide_eq_true h, fun j hj => absurd hj (Nat.not_lt_zero j)⟩
      · intro h
        exact decide_eq_true h.1
    | succ n =>
      simp only [List.getD_cons_succ]
      by_cases hc0 : fixationTime + duration ≤ correctedElapsed f.1 f.2
      · rw [decide_eq_true hc0]
        simp only [Bool.false_or]
        have hall := trialEndRun_latched_all_false fixationTime duration fs
        rw [getD_false_of_all_false _ hall n]
        constructor
        · intro h; exact absurd h (by simp)
        · intro h
          have := h.2 0 (Nat.succ_pos n)
          simp only [List.getD_cons_zero] at this
          exact absurd hc0 (not_le.mpr this)
      · rw [decide_eq_false hc0, Bool.false_or]
        have hn : n < fs.length := by
          simpa [Nat.succ_lt_succ_iff] using hi
        rw [ih n hn]
        constructor
        · intro h
          refine ⟨h.1, fun j hj => ?_⟩
          cases j with
          | zero =>
            simp only [List.getD_cons_zero]
            exact not_le.mp hc0
          | succ m =>
            simp only [List.getD_cons_succ]
            exact h.2 m (Nat.lt_of_succ_lt_succ hj)
        · intro h
          refine ⟨h.1, fun j hj => ?_⟩
          have := h.2 (j + 1) (Nat.succ_lt_succ hj)
          simpa using this

/-- Claim C5: the trial-end edge fires on the first frame whose corrected
elapsed time (elapsed plus half-frame correction, zero when uncalibrated)
reaches fixationTime + duration, fires only when duration is positive,
and fires at most once: once the latch is set it never fires again. -/
theorem trial_end_edge_fires_once (fixationTime duration : ℚ)
    (frames : List (ℚ × CalibState)) :
    (∀ b ∈ trialEndRun fixationTime duration true frames, b = false) ∧
    ((trialEndRun fixationTime duration false frames).count true ≤ 1) ∧
    (duration ≤ 0 →
      ∀ b ∈ trialEndRun fixationTime duration false frames, b = false) ∧
    (∀ s : CalibState, s.isCalibrated = false →
      ∀ e : ℚ, correctedElapsed e s = e) ∧
    (0 < duration → ∀ i < frames.length,
      ((trialEndRun fixationTime duration false frames).getD i false = true ↔
        (fixationTime + duration ≤
            correctedElapsed (frames.getD i (0, initialCalibState)).1
              (frames.getD i (0, initialCalibState)).2 ∧
          ∀ j < i, correctedElapsed (frames.getD j (0, initialCalibState)).1
              (frames.getD j (0, initialCalibState)).2 <
            fixationTime + duration))) := by
  refine ⟨trialEndRun_latched_all_false fixationTime duration frames,
    trialEndRun_count_le_one fixationTime duration frames,
    fun hdur => trialEndRun_nonpositive_never fixationTime duration hdur frames
      false, ?_, fun hdur i hi => trialEndRun_first_reach fixationTime duration
      hdur frames i hi⟩
  intro s hs e
  cases hest : s.estimatedFrameInterval with
  | none => simp [correctedElapsed, halfFrameCorrection, hest]
  | some est => simp [correctedElapsed, halfFrameCorrection, hest, hs]

/-- Claim C5, witness: the spec scenario duration = 1000, fixationTime =
0, no calibration, frames at 500, 990, 1005 and 1600 ms: the edge fires on
the third frame (the first with elapsed at least 1000) and in total at
most once. -/
theorem trial_end_edge_fires_once_witness :
    ((trialEndRun 0 1000 false [(500, initialCalibState),
        (990, initialCalibState), (1005, initialCalibState),
        (1600, initialCalibState)]).getD 2 false = true) ∧
    ((trialEndRun 0 1000 false [(500, initialCalibState),
        (990, initialCalibState), (1005, initialCalibState),
        (1600, initialCalibState)]).count true ≤ 1) := by
  have h := trial_end_edge_fires_once 0 1000 [(500, initialCalibState),
    (990, initialCalibState), (1005, initialCalibState),
    (1600, initialCalibState)]
  refine ⟨?_, h.2.1⟩
  have hcorr := h.2.2.2.1
  rw [(h.2.2.2.2 (by norm_num) 2 (by norm_num))]
  constructor
  · rw [show (([(500, initialCalibState), (990, initialCalibState),
      (1005, initialCalibState), (1600, initialCalibState)] :
        List (ℚ × CalibState)).getD 2 (0, initialCalibState)) =
      (1005, initialCalibState) by rfl]
    rw [hcorr initialCalibState rfl 1005]
    norm_num
  · intro j hj
    interval_cases j
    · rw [show (([(500, initialCalibState), (990, initialCalibState),
        (1005, initialCalibState), (1600, initialCalibState)] :
          List (ℚ × CalibState)).getD 0 (0, initialCalibState)) =
        (500, initialCalibState) by rfl]
      rw [hcorr initialCalibState rfl 500]
      norm_num
    · rw [show (([(500, initialCalibState), (990, initialCalibState),
        (1005, initialCalibState), (1600, initialCalibState)] :
          List (ℚ × CalibState)).getD 1 (0, initialCalibState)) =
        (990, initialCalibState) by rfl]
      rw [hcorr initialCalibState rfl 990]
      norm_num

/-- The JavaScript remainder of a non-negative value by a positive span
lies in [0, span). -/
theorem jsRem_nonneg_mem (v w : ℝ) (hw : 0 < w) (hv : 0 ≤ v) :
    0 ≤ jsRem v w ∧ jsRem v w < w := by
  rw [jsRem, jsTrunc, if_pos (by positivity : (0:ℝ) ≤ v / w)]
  have h1 : v - w * (⌊v / w⌋ : ℝ) = w * Int.fract (v / w) := by
    rw [Int.fract]
    field_simp
  rw [h1]
  constructor
  · exact mul_nonneg hw.le (Int.fract_nonneg _)
  · calc w * Int.fract (v / w) < w * 1 :=
        mul_lt_mul_of_pos_left (Int.fract_lt_one _) hw
    _ = w := mul_one w

/-- The JavaScript remainder by a positive span always lies strictly
between -span and span. -/
theorem jsRem_bounds (u w : ℝ) (hw : 0 < w) : -w < jsRem u w ∧ jsRem u w < w := by
  rcases le_or_lt 0 u with hu | hu
  · have h := jsRem_nonneg_mem u w hw hu
    exact ⟨by linarith, h.2⟩
  · rw [jsRem, jsTrunc, if_neg (not_le.mpr (div_neg_of_neg_of_pos hu hw))]
    have hc1 : u / w ≤ (⌈u / w⌉ : ℝ) := Int.le_ceil _
    have hc2 : (⌈u / w⌉ : ℝ) < u / w + 1 := Int.ceil_lt_add_one _
    have he : w * (u / w) = u := by field_simp
    have h1 : w * (u / w) ≤ w * (⌈u / w⌉ : ℝ) := mul_le_mul_of_nonneg_left hc1 hw.le
    have h2 : w * (⌈u / w⌉ : ℝ) < w * (u / w + 1) := mul_lt_mul_of_pos_left hc2 hw
    constructor
    · nlinarith
    · nlinarith

/-- The double-remainder idiom lands in [0, span) for every input. -/
theorem jsRem_double_mem (u w : ℝ) (hw : 0 < w) :
    0 ≤ jsRem (jsRem u w + w) w ∧ jsRem (jsRem u w + w) w < w :=
  jsRem_nonneg_mem _ w hw (by linarith [(jsRem_bounds u w hw).1])

/-- The double-remainder idiom fixes values already in [0, span). -/
theorem jsRem_double_fixed (u w : ℝ) (hw : 0 < w) (h0 : 0 ≤ u) (h1 : u < w) :
    jsRem (jsRem u w + w) w = u := by
  have e1 : jsRem u w = u := by
    rw [jsRem, jsTrunc, if_pos (by positivity : (0:ℝ) ≤ u / w)]
    rw [Int.floor_eq_zero_iff.mpr
      ⟨by positivity, by rwa [div_lt_one hw]⟩]
    simp
  rw [e1, jsRem, jsTrunc, if_pos (by positivity : (0:ℝ) ≤ (u + w) / w)]
  have hfl : ⌊(u + w) / w⌋ = 1 := by
    rw [Int.floor_eq_iff]
    rw [add_div, div_self hw.ne.symm]
    constructor
    · nlinarith [div_nonneg h0 hw.le]
    · push_cast
      nlinarith [(div_lt_one hw).mpr h1]
  rw [hfl]
  push_cast
  ring

/-- Unfolding lemma: the horizontal semi-axis of a literal aperture. -/
theorem horizontalAxis_mk (sh : ApertureShape) (w h cx cy : ℝ) :
    (Aperture.mk sh w h cx cy).horizontalAxis = w / 2 := rfl

/-- Unfolding lemma: the vertical semi-axis of a rectangle aperture. -/
theorem verticalAxis_rectangle (w h cx cy : ℝ) :
    (Aperture.mk ApertureShape.rectangle w h cx cy).verticalAxis = h / 2 := by
  simp [Aperture.verticalAxis]

/-- Unfolding lemma: the vertical semi-axis of an ellipse aperture. -/
theorem verticalAxis_ellipse (w h cx cy : ℝ) :
    (Aperture.mk ApertureShape.ellipse w h cx cy).verticalAxis = h / 2 := by
  simp [Aperture.verticalAxis]

/-- Unfolding lemma: the vertical semi-axis of a circle aperture equals
the horizontal one. -/
theorem verticalAxis_circle (w h cx cy : ℝ) :
    (Aperture.mk ApertureShape.circle w h cx cy).verticalAxis = w / 2 := by
  simp [Aperture.verticalAxis, Aperture.horizontalAxis]

/-- The wrap policy maps every point into the half-open bounding box, on
both shape families. -/
theorem wrap_mem_box (ap : Aperture) (x y : ℝ) (hh : 0 < ap.horizontalAxis)
    (hv : 0 < ap.verticalAxis) :
    inWrapBox ap (ap.wrap x y).1 (ap.wrap x y).2 := by
  simp only [Aperture.wrap, inWrapBox]
  have hx := jsRem_double_mem (x - (ap.centerX - ap.horizontalAxis))
    (ap.horizontalAxis * 2) (by linarith)
  have hy := jsRem_double_mem (y - (ap.centerY - ap.verticalAxis))
    (ap.verticalAxis * 2) (by linarith)
  refine ⟨by linarith [hx.1], by linarith [hx.2], by linarith [hy.1],
    by linarith [hy.2]⟩

/-- The wrap policy fixes every point already inside the half-open
bounding box. -/
theorem wrap_fixed_inside (ap : Aperture) (x y : ℝ)
    (hh : 0 < ap.horizontalAxis) (hv : 0 < ap.verticalAxis)
    (hbox : inWrapBox ap x y) : ap.wrap x y = (x, y) := by
  rw [inWrapBox] at hbox
  simp only [Aperture.wrap]
  have hx := jsRem_double_fixed (x - (ap.centerX - ap.horizontalAxis))
    (ap.horizontalAxis * 2) (by linarith) (by linarith [hbox.1])
    (by linarith [hbox.2.1])
  have hy := jsRem_double_fixed (y - (ap.centerY - ap.verticalAxis))
    (ap.verticalAxis * 2) (by linarith) (by linarith [hbox.2.2.1])
    (by linarith [hbox.2.2.2])
  rw [hx, hy]
  rw [Prod.mk.injEq]
  constructor
  · ring
  · ring

/-- Claim C7: for every point and every aperture with positive extents,
wrap lands in [center - extent, center + extent) on each axis, and is the
identity on points already inside that half-open box. -/
theorem wrap_box_and_fixed_point (ap : Aperture) (x y : ℝ)
    (hh : 0 < ap.horizontalAxis) (hv : 0 < ap.verticalAxis) :
    inWrapBox ap (ap.wrap x y).1 (ap.wrap x y).2 ∧
      (inWrapBox ap x y → ap.wrap x y = (x, y)) :=
  ⟨wrap_mem_box ap x y hh hv, wrap_fixed_inside ap x y hh hv⟩

/-- Claim C7, witness: a concrete square aperture and an outside point. -/
theorem wrap_box_and_fixed_point_witness :
    inWrapBox ⟨ApertureShape.rectangle, 2, 2, 0, 0⟩
      ((Aperture.wrap ⟨ApertureShape.rectangle, 2, 2, 0, 0⟩ 5 0).1)
      ((Aperture.wrap ⟨ApertureShape.rectangle, 2, 2, 0, 0⟩ 5 0).2) ∧
    Aperture.wrap ⟨ApertureShape.rectangle, 2, 2, 0, 0⟩ (1/2) 0 = (1/2, 0) := by
  constructor
  · exact (wrap_box_and_fixed_point ⟨ApertureShape.rectangle, 2, 2, 0, 0⟩ 5 0
      (by norm_num [horizontalAxis_mk])
      (by norm_num [verticalAxis_rectangle])).1
  · exact (wrap_box_and_fixed_point ⟨ApertureShape.rectangle, 2, 2, 0, 0⟩
      (1/2) 0
      (by norm_num [horizontalAxis_mk])
      (by norm_num [verticalAxis_rectangle])).2
      (by norm_num [inWrapBox, horizontalAxis_mk, verticalAxis_rectangle])

/-- Every point sampled by getRandomPosition lies inside the aperture
expanded by any non-negative margin, for every outcome of the two
Math.random() draws, on both shape families with positive extents. -/
theorem getRandomPosition_not_outside (ap : Aperture) (r1 r2 margin : ℝ)
    (hh : 0 < ap.horizontalAxis) (hv : 0 < ap.verticalAxis) (hm : 0 ≤ margin)
    (h10 : 0 ≤ r1) (h11 : r1 < 1) (h20 : 0 ≤ r2) (h21 : r2 < 1) :
    ¬ ap.isOutside (ap.getRandomPosition r1 r2).1
      (ap.getRandomPosition r1 r2).2 margin := by
  by_cases hshape : ap.shape = ApertureShape.circle ∨ ap.shape = ApertureShape.ellipse
  · simp only [Aperture.getRandomPosition, Aperture.isOutside, if_pos hshape]
    rw [not_lt]
    set c := Real.cos (randomBetween (-Real.pi) Real.pi r1) with hc
    set sn := Real.sin (randomBetween (-Real.pi) Real.pi r1) with hsn
    set rho := Real.sqrt r2 with hrho
    have hsum : c * c + sn * sn = 1 := by
      have := Real.sin_sq_add_cos_sq (randomBetween (-Real.pi) Real.pi r1)
      rw [hc, hsn]
      nlinarith [this]
    have hrho2 : rho * rho = r2 := Real.mul_self_sqrt h20
    have hhm : 0 < ap.horizontalAxis + margin := by linarith
    have hvm : 0 < ap.verticalAxis + margin := by linarith
    have e1 : (c * rho * ap.horizontalAxis + ap.centerX - ap.centerX) /
        (ap.horizontalAxis + margin) =
        c * rho * (ap.horizontalAxis / (ap.horizontalAxis + margin)) := by
      ring
    have e2 : (sn * rho * ap.verticalAxis + ap.centerY - ap.centerY) /
        (ap.verticalAxis + margin) =
        sn * rho * (ap.verticalAxis / (ap.verticalAxis + margin)) := by
      ring
    rw [e1, e2]
    have hq1a : 0 ≤ ap.horizontalAxis / (ap.horizontalAxis + margin) := by positivity
    have hq1b : ap.horizontalAxis / (ap.horizontalAxis + margin) ≤ 1 := by
      rw [div_le_one hhm]; linarith
    have hq2a : 0 ≤ ap.verticalAxis / (ap.verticalAxis + margin) := by positivity
    have hq2b : ap.verticalAxis / (ap.verticalAxis + margin) ≤ 1 := by
      rw [div_le_one hvm]; linarith
    set q1 := ap.horizontalAxis / (ap.horizontalAxis + margin) with hq1def
    set q2 := ap.verticalAxis / (ap.verticalAxis + margin) with hq2def
    have b1 : (c * rho * q1) * (c * rho * q1) ≤ (c * rho) * (c * rho) := by
      nlinarith [sq_nonneg (c * rho),
        mul_nonneg (sub_nonneg.mpr hq1b) (show (0:ℝ) ≤ 1 + q1 by linarith)]
    have b2 : (sn * rho * q2) * (sn * rho * q2) ≤ (sn * rho) * (sn * rho) := by
      nlinarith [sq_nonneg (sn * rho),
        mul_nonneg (sub_nonneg.mpr hq2b) (show (0:ℝ) ≤ 1 + q2 by linarith)]
    have hfin : (c * rho) * (c * rho) + (sn * rho) * (sn * rho) = r2 := by
      have e3 : (c * rho) * (c * rho) + (sn * rho) * (sn * rho) =
          (c * c + sn * sn) * (rho * rho) := by ring
      rw [e3, hsum, hrho2, one_mul]
    linarith
  · simp only [Aperture.getRandomPosition, Aperture.isOutside, if_neg hshape]
    rw [randomBetween, randomBetween]
    push_neg
    have h2h : (0:ℝ) ≤ 2 * ap.horizontalAxis := by linarith
    have h2v : (0:ℝ) ≤ 2 * ap.verticalAxis := by linarith
    have hx1 : 0 ≤ r1 * (2 * ap.horizontalAxis) := mul_nonneg h10 h2h
    have hx2 : r1 * (2 * ap.horizontalAxis) ≤ 2 * ap.horizontalAxis :=
      mul_le_of_le_one_left h2h h11.le
    have hy1 : 0 ≤ r2 * (2 * ap.verticalAxis) := mul_nonneg h20 h2v
    have hy2 : r2 * (2 * ap.verticalAxis) ≤ 2 * ap.verticalAxis :=
      mul_le_of_le_one_left h2v h21.le
    refine ⟨by nlinarith, by nlinarith, by nlinarith, by nlinarith⟩

/-- Claim C3: every point returned by getRandomPosition, on either
aperture family with positive extents, satisfies isOutside(x, y, 0) =
false, for every outcome of the uniform draws. -/
theorem random_position_never_outside (ap : Aperture) (r1 r2 : ℝ)
    (hh : 0 < ap.horizontalAxis) (hv : 0 < ap.verticalAxis)
    (h10 : 0 ≤ r1) (h11 : r1 < 1) (h20 : 0 ≤ r2) (h21 : r2 < 1) :
    ¬ ap.isOutside (ap.getRandomPosition r1 r2).1
      (ap.getRandomPosition r1 r2).2 0 :=
  getRandomPosition_not_outside ap r1 r2 0 hh hv le_rfl h10 h11 h20 h21

/-- Claim C3, witness: a concrete rectangle aperture with both draws 0. -/
theorem random_position_never_outside_witness :
    ¬ (Aperture.isOutside ⟨ApertureShape.rectangle, 2, 2, 0, 0⟩
      ((Aperture.getRandomPosition ⟨ApertureShape.rectangle, 2, 2, 0, 0⟩ 0 0).1)
      ((Aperture.getRandomPosition ⟨ApertureShape.rectangle, 2, 2, 0, 0⟩ 0 0).2)
      0) :=
  random_position_never_outside ⟨ApertureShape.rectangle, 2, 2, 0, 0⟩ 0 0
    (by norm_num [horizontalAxis_mk]) (by norm_num [verticalAxis_rectangle])
    le_rfl (by norm_num) le_rfl (by norm_num)

/-- Claim C10, counterexample: a randomDirection dot whose sampled angle
is exactly 0 (reachable, since randomBetween(-pi, pi) hits 0 at draw 1/2)
stores the direction (0, 0) — the JavaScript truthiness test theta ? ... :
0 skips the cosine — whereas the claimed unit vector is (cos 0, -sin 0) =
(1, 0); the stored magnitude is 0, not 1. -/
theorem createDot_zero_theta_stores_zero_vector :
    (createDot FrameMovement.randomDirection (-1)
      ⟨ApertureShape.rectangle, 2, 2, 0, 0⟩ 0 0 0 0).randomDirX = 0 ∧
    (createDot FrameMovement.randomDirection (-1)
      ⟨ApertureShape.rectangle, 2, 2, 0, 0⟩ 0 0 0 0).randomDirY = 0 ∧
    Real.cos 0 = 1 ∧ -Real.sin 0 = 0 := by
  refine ⟨?_, ?_, Real.cos_zero, by rw [Real.sin_zero]; ring⟩
  · simp [createDot]
  · simp [createDot]

/-- Claim C10 (amended): for every angle sampled in [-pi, pi] other than
exactly 0, a created randomDirection dot stores the unit vector
(cos theta, -sin theta), whose magnitude is 1. -/
theorem createDot_random_direction_unit (maxDotLife : ℝ) (ap : Aperture)
    (posR1 posR2 thetaSample lifeR : ℝ)
    (hlo : -Real.pi ≤ thetaSample) (hhi : thetaSample ≤ Real.pi)
    (hne : thetaSample ≠ 0) :
    (createDot FrameMovement.randomDirection maxDotLife ap posR1 posR2
      thetaSample lifeR).randomDirX = Real.cos thetaSample ∧
    (createDot FrameMovement.randomDirection maxDotLife ap posR1 posR2
      thetaSample lifeR).randomDirY = -Real.sin thetaSample ∧
    (createDot FrameMovement.randomDirection maxDotLife ap posR1 posR2
      thetaSample lifeR).randomDirX ^ 2 +
      (createDot FrameMovement.randomDirection maxDotLife ap posR1 posR2
        thetaSample lifeR).randomDirY ^ 2 = 1 := by
  have h1 : (createDot FrameMovement.randomDirection maxDotLife ap posR1 posR2
      thetaSample lifeR).randomDirX = Real.cos thetaSample := by
    simp [createDot, hne]
  have h2 : (createDot FrameMovement.randomDirection maxDotLife ap posR1 posR2
      thetaSample lifeR).randomDirY = -Real.sin thetaSample := by
    simp [createDot, hne]
  refine ⟨h1, h2, ?_⟩
  rw [h1, h2]
  have := Real.sin_sq_add_cos_sq thetaSample
  nlinarith [this]

/-- Claim C10, witness: the sampled angle pi stores (cos pi, -sin pi) =
(-1, 0), a unit vector. -/
theorem createDot_random_direction_unit_witness :
    (createDot FrameMovement.randomDirection (-1)
      ⟨ApertureShape.rectangle, 2, 2, 0, 0⟩ 0 0 Real.pi 0).randomDirX =
      Real.cos Real.pi ∧
    (createDot FrameMovement.randomDirection (-1)
      ⟨ApertureShape.rectangle, 2, 2, 0, 0⟩ 0 0 Real.pi 0).randomDirY =
      -Real.sin Real.pi ∧
    (createDot FrameMovement.randomDirection (-1)
      ⟨ApertureShape.rectangle, 2, 2, 0, 0⟩ 0 0 Real.pi 0).randomDirX ^ 2 +
      (createDot FrameMovement.randomDirection (-1)
        ⟨ApertureShape.rectangle, 2, 2, 0, 0⟩ 0 0 Real.pi 0).randomDirY ^ 2 =
      1 :=
  createDot_random_direction_unit (-1) ⟨ApertureShape.rectangle, 2, 2, 0, 0⟩
    0 0 Real.pi 0 (by linarith [Real.pi_pos]) le_rfl Real.pi_ne_zero

/-- Claim C8: a dot whose incremented life counter reaches a positive
maxLifetime respawns at a fresh random position with the counter reset to
0, keeping its previous role and stored direction; the result is
independent of the distance, the reinsertion mode, the coherent direction
and any reassignment supplied for the tick, so no movement, boundary test,
reinsertion or reassignment happens. -/
theorem updateDot_life_expiry_respawns (dot : Dot)
    (distance deltaTimeMs maxDotLife : ℝ) (ap : Aperture)
    (reinsertType : String) (dotRadius : ℝ) (coherentDir : ℝ × ℝ)
    (reassignMovementTo : Option FrameMovement) (rand : UpdateRand)
    (hexp : lifeExpired dot deltaTimeMs maxDotLife) :
    updateDot dot distance deltaTimeMs maxDotLife ap reinsertType dotRadius
      coherentDir reassignMovementTo rand =
    Except.ok { dot with
      x := (ap.getRandomPosition rand.respawnR1 rand.respawnR2).1
      y := (ap.getRandomPosition rand.respawnR1 rand.respawnR2).2
      lifeCount := 0 } := by
  rw [lifeExpired] at hexp
  rw [updateDot, if_pos hexp]

/-- Claim C8, witness: the spec scenario lifeCount = 95, maxLifetime =
100, a 10 ms step: the dot respawns (life 0, fresh position, role kept)
even though a reassignment to opposite was supplied. -/
theorem updateDot_life_expiry_respawns_witness :
    updateDot ⟨0, 0, 0, 0, 95, FrameMovement.coherent⟩ 5 10 100
      ⟨ApertureShape.rectangle, 2, 2, 0, 0⟩ "opposite" 2 (1, 0)
      (some FrameMovement.opposite) ⟨0, 0, 0, 0, 0, 0, 0, 0⟩ =
    Except.ok
      ⟨(Aperture.getRandomPosition ⟨ApertureShape.rectangle, 2, 2, 0, 0⟩ 0 0).1,
       (Aperture.getRandomPosition ⟨ApertureShape.rectangle, 2, 2, 0, 0⟩ 0 0).2,
       0, 0, 0, FrameMovement.coherent⟩ := by
  have h := updateDot_life_expiry_respawns ⟨0, 0, 0, 0, 95, FrameMovement.coherent⟩
    5 10 100 ⟨ApertureShape.rectangle, 2, 2, 0, 0⟩ "opposite" 2 (1, 0)
    (some FrameMovement.opposite) ⟨0, 0, 0, 0, 0, 0, 0, 0⟩
    (by rw [lifeExpired]; norm_num)
  rw [h]

/-- Claim C6: on an elliptical aperture with positive extents, a dot at
the rightmost boundary point travelling purely rightward is reinserted by
the opposite ray-cast exactly at the leftmost boundary point with the same
vertical offset, over exact arithmetic. -/
theorem opposite_ray_rightmost_to_leftmost (ap : Aperture)
    (hshape : ap.shape = ApertureShape.ellipse)
    (hh : 0 < ap.horizontalAxis) (hv : 0 < ap.verticalAxis) (dot : Dot)
    (hx : dot.x = ap.centerX + ap.horizontalAxis) (hy : dot.y = ap.centerY) :
    ap.getOppositePosition dot (some 1) (some 0) =
      (ap.centerX - ap.horizontalAxis, ap.centerY) := by
  simp only [Aperture.getOppositePosition, hshape, hx, hy]
  norm_num
  have hne : ap.horizontalAxis ≠ 0 := ne_of_gt hh
  have e0 : ap.horizontalAxis * ap.horizontalAxis /
      (ap.horizontalAxis * ap.horizontalAxis) = 1 := div_self (by positivity)
  rw [e0]
  have e1 : (1:ℝ) - 1 = 0 := by norm_num
  rw [e1]
  simp only [mul_zero, sub_zero]
  have e2 : Real.sqrt (ap.horizontalAxis⁻¹ * ap.horizontalAxis⁻¹) =
      ap.horizontalAxis⁻¹ := Real.sqrt_mul_self (inv_nonneg.mpr hh.le)
  rw [e2]
  rw [if_pos (by positivity), if_pos (by positivity)]
  rw [Prod.mk.injEq]
  constructor
  · field_simp
    ring
  · rfl

/-- Claim C6, witness: the default 600 x 400 ellipse centered at the
origin sends the rightmost point (300, 0) travelling rightward to
(-300, 0). -/
theorem opposite_ray_rightmost_to_leftmost_witness :
    Aperture.getOppositePosition ⟨ApertureShape.ellipse, 600, 400, 0, 0⟩
      ⟨300, 0, 0, 0, 0, FrameMovement.coherent⟩ (some 1) (some 0) =
      (-300, 0) := by
  have h := opposite_ray_rightmost_to_leftmost
    ⟨ApertureShape.ellipse, 600, 400, 0, 0⟩ rfl
    (by norm_num [horizontalAxis_mk]) (by norm_num [verticalAxis_ellipse])
    ⟨300, 0, 0, 0, 0, FrameMovement.coherent⟩
    (by norm_num [horizontalAxis_mk]) rfl
  rw [h]
  norm_num [horizontalAxis_mk]

/-- Shrinking a coordinate by a larger positive denominator shrinks its
squared normalized value. -/
theorem sq_mul_frac_le (p d m : ℝ) (hd : 0 < d) (hm : 0 ≤ m) :
    (p / (d + m)) * (p / (d + m)) ≤ (p / d) * (p / d) := by
  have h1 : 0 < d + m := by linarith
  rw [div_mul_div_comm, div_mul_div_comm]
  rw [div_le_div_iff (by positivity) (by positivity)]
  nlinarith [mul_nonneg (mul_self_nonneg p)
    (show 0 ≤ (d + m) * (d + m) - d * d by nlinarith)]

/-- A point whose normalized elliptical quadratic form is at most 1 is not
outside the aperture expanded by any non-negative margin (elliptical
family). -/
theorem not_isOutside_elliptical_of_sum_le (ap : Aperture)
    (hshape : ap.shape = ApertureShape.circle ∨ ap.shape = ApertureShape.ellipse)
    (x y margin : ℝ) (hh : 0 < ap.horizontalAxis) (hv : 0 < ap.verticalAxis)
    (hm : 0 ≤ margin)
    (hsum : ((x - ap.centerX) / ap.horizontalAxis) *
        ((x - ap.centerX) / ap.horizontalAxis) +
      ((y - ap.centerY) / ap.verticalAxis) *
        ((y - ap.centerY) / ap.verticalAxis) ≤ 1) :
    ¬ ap.isOutside x y margin := by
  simp only [Aperture.isOutside, if_pos hshape]
  rw [not_lt]
  have b1 := sq_mul_frac_le (x - ap.centerX) ap.horizontalAxis margin hh hm
  have b2 := sq_mul_frac_le (y - ap.centerY) ap.verticalAxis margin hv hm
  linarith

/-- A point inside the closed bounding box is not outside the aperture
expanded by any non-negative margin (rectangular family). -/
theorem not_isOutside_rect_of_mem_box (ap : Aperture)
    (hshape : ¬(ap.shape = ApertureShape.circle ∨
      ap.shape = ApertureShape.ellipse))
    (x y margin : ℝ) (hm : 0 ≤ margin)
    (hx1 : ap.centerX - ap.horizontalAxis ≤ x)
    (hx2 : x ≤ ap.centerX + ap.horizontalAxis)
    (hy1 : ap.centerY - ap.verticalAxis ≤ y)
    (hy2 : y ≤ ap.centerY + ap.verticalAxis) :
    ¬ ap.isOutside x y margin := by
  simp only [Aperture.isOutside, if_neg hshape]
  push_neg
  refine ⟨by linarith, by linarith, by linarith, by linarith⟩


/-- The elliptical simple reinsertion (center mirror, radially clamped
onto the boundary when the mirror is still outside) always lands on or
inside the ellipse boundary. -/
theorem getOppositePositionSimple_elliptical_sum_le (ap : Aperture)
    (hshape : ap.shape = ApertureShape.circle ∨ ap.shape = ApertureShape.ellipse)
    (hh : 0 < ap.horizontalAxis) (hv : 0 < ap.verticalAxis) (dot : Dot) :
    (((ap.getOppositePositionSimple dot).1 - ap.centerX) / ap.horizontalAxis) *
        (((ap.getOppositePositionSimple dot).1 - ap.centerX) /
          ap.horizontalAxis) +
      (((ap.getOppositePositionSimple dot).2 - ap.centerY) / ap.verticalAxis) *
        (((ap.getOppositePositionSimple dot).2 - ap.centerY) /
          ap.verticalAxis) ≤ 1 := by
  simp only [Aperture.getOppositePositionSimple, if_pos hshape]
  set mx := (2 * ap.centerX - dot.x - ap.centerX) / ap.horizontalAxis with hmx
  set my := (2 * ap.centerY - dot.y - ap.centerY) / ap.verticalAxis with hmy
  have hd2 : Real.sqrt (mx * mx + my * my) * Real.sqrt (mx * mx + my * my) =
      mx * mx + my * my :=
    Real.mul_self_sqrt (by nlinarith [mul_self_nonneg mx, mul_self_nonneg my])
  by_cases hdist : Real.sqrt (mx * mx + my * my) > 1
  · rw [if_pos hdist]
    have hdpos : (0:ℝ) < Real.sqrt (mx * mx + my * my) := lt_trans one_pos hdist
    have e1 : (ap.centerX + mx / Real.sqrt (mx * mx + my * my) *
        ap.horizontalAxis - ap.centerX) / ap.horizontalAxis =
        mx / Real.sqrt (mx * mx + my * my) := by
      field_simp
      ring
    have e2 : (ap.centerY + my / Real.sqrt (mx * mx + my * my) *
        ap.verticalAxis - ap.centerY) / ap.verticalAxis =
        my / Real.sqrt (mx * mx + my * my) := by
      field_simp
      ring
    simp only
    rw [e1, e2]
    have e3 : mx / Real.sqrt (mx * mx + my * my) *
        (mx / Real.sqrt (mx * mx + my * my)) +
        my / Real.sqrt (mx * mx + my * my) *
          (my / Real.sqrt (mx * mx + my * my)) =
        (mx * mx + my * my) /
          (Real.sqrt (mx * mx + my * my) * Real.sqrt (mx * mx + my * my)) := by
      ring
    rw [e3, hd2]
    have hpos : 0 < mx * mx + my * my := by nlinarith
    exact le_of_eq (div_self hpos.ne.symm)
  · rw [if_neg hdist]
    simp only
    have hle : Real.sqrt (mx * mx + my * my) ≤ 1 := not_lt.mp hdist
    have hnn : 0 ≤ Real.sqrt (mx * mx + my * my) := Real.sqrt_nonneg _
    calc (2 * ap.centerX - dot.x - ap.centerX) / ap.horizontalAxis *
          ((2 * ap.centerX - dot.x - ap.centerX) / ap.horizontalAxis) +
        (2 * ap.centerY - dot.y - ap.centerY) / ap.verticalAxis *
          ((2 * ap.centerY - dot.y - ap.centerY) / ap.verticalAxis) =
        mx * mx + my * my := by rw [hmx, hmy]
    _ ≤ 1 := by nlinarith

/-- The larger root (B + sqrt(B^2 - AC)) / A of the reduced quadratic
A t^2 - 2 B t + C really is a root when the discriminant is
non-negative. -/
theorem quadratic_larger_root_zero (A B C : ℝ) (hA : A ≠ 0)
    (hd : 0 ≤ B * B - A * C) :
    A * ((B + Real.sqrt (B * B - A * C)) / A) *
        ((B + Real.sqrt (B * B - A * C)) / A) -
      2 * B * ((B + Real.sqrt (B * B - A * C)) / A) + C = 0 := by
  have hs := Real.mul_self_sqrt hd
  field_simp
  nlinarith [hs]

/-- A point of the backward ray at a parameter that solves the
ray-ellipse quadratic lies exactly on the ellipse. -/
theorem ellipse_sum_of_root (xRel yRel dx dy t a2 b2 : ℝ)
    (ha2 : a2 ≠ 0) (hb2 : b2 ≠ 0)
    (hroot : (dx * dx / a2 + dy * dy / b2) * t * t -
      2 * (xRel * dx / a2 + yRel * dy / b2) * t +
      (xRel * xRel / a2 + yRel * yRel / b2 - 1) = 0) :
    (xRel - dx * t) * (xRel - dx * t) / a2 +
      (yRel - dy * t) * (yRel - dy * t) / b2 = 1 := by
  field_simp at hroot ⊢
  linear_combination hroot

/-- The elliptical ray-cast reinsertion always lands on or inside the
ellipse boundary: the computed far intersection lies exactly on it, and
every failed guard falls back to the simple policy. -/
theorem getOppositePosition_elliptical_sum_le (ap : Aperture)
    (hshape : ap.shape = ApertureShape.circle ∨ ap.shape = ApertureShape.ellipse)
    (hh : 0 < ap.horizontalAxis) (hv : 0 < ap.verticalAxis) (dot : Dot)
    (odx ody : Option ℝ) :
    (((ap.getOppositePosition dot odx ody).1 - ap.centerX) /
          ap.horizontalAxis) *
        (((ap.getOppositePosition dot odx ody).1 - ap.centerX) /
          ap.horizontalAxis) +
      (((ap.getOppositePosition dot odx ody).2 - ap.centerY) /
          ap.verticalAxis) *
        (((ap.getOppositePosition dot odx ody).2 - ap.centerY) /
          ap.verticalAxis) ≤ 1 := by
  rcases odx with _ | dirX <;> rcases ody with _ | dirY
  · simp only [Aperture.getOppositePosition, if_pos hshape]
    exact getOppositePositionSimple_elliptical_sum_le ap hshape hh hv dot
  · simp only [Aperture.getOppositePosition, if_pos hshape]
    exact getOppositePositionSimple_elliptical_sum_le ap hshape hh hv dot
  · simp only [Aperture.getOppositePosition, if_pos hshape]
    exact getOppositePositionSimple_elliptical_sum_le ap hshape hh hv dot
  · simp only [Aperture.getOppositePosition, if_pos hshape]
    split_ifs with h1 h2 h3
    rotate_left
    · exact getOppositePositionSimple_elliptical_sum_le ap hshape hh hv dot
    · exact getOppositePositionSimple_elliptical_sum_le ap hshape hh hv dot
    · exact getOppositePositionSimple_elliptical_sum_le ap hshape hh hv dot
    · set D := dirX * dirX + dirY * dirY with hD
      set mag := Real.sqrt D with hmagdef
      set dx := dirX / mag with hdx
      set dy := dirY / mag with hdy
      set xRel := dot.x - ap.centerX with hxRel
      set yRel := dot.y - ap.centerY with hyRel
      set a2 := ap.horizontalAxis * ap.horizontalAxis with ha2
      set b2 := ap.verticalAxis * ap.verticalAxis with hb2
      set A := dx * dx / a2 + dy * dy / b2 with hA
      set B := xRel * dx / a2 + yRel * dy / b2 with hB
      set C := xRel * xRel / a2 + yRel * yRel / b2 - 1 with hC
      set t := (B + Real.sqrt (B * B - A * C)) / A with ht
      have ha2pos : 0 < a2 := by rw [ha2]; positivity
      have hb2pos : 0 < b2 := by rw [hb2]; positivity
      have hDpos : 0 < D := lt_trans (by positivity) h1
      have hmag2 : mag * mag = D := by
        rw [hmagdef]; exact Real.mul_self_sqrt hDpos.le
      have hmagpos : 0 < mag := by rw [hmagdef]; exact Real.sqrt_pos.mpr hDpos
      have hunit : dx * dx + dy * dy = 1 := by
        rw [hdx, hdy]
        field_simp
        rw [hmag2]
      have hApos : 0 < A := by
        rcases eq_or_ne dx 0 with hdx0 | hdx0
        · have hdy1 : dy * dy = 1 := by
            rw [hdx0] at hunit; simpa using hunit
          rw [hA, hdx0, hdy1]
          have : (0:ℝ) * 0 / a2 = 0 := by simp
          rw [this]
          positivity
        · exact add_pos_of_pos_of_nonneg
            (div_pos (mul_self_pos.mpr hdx0) ha2pos)
            (div_nonneg (mul_self_nonneg dy) hb2pos.le)
      have hdnn : (0:ℝ) ≤ B * B - A * C := by linarith [h2]
      have hroot : A * t * t - 2 * B * t + C = 0 := by
        have hq := quadratic_larger_root_zero A B C hApos.ne.symm hdnn
        rw [← ht] at hq
        exact hq
      have hproj1 : ((dot.x - dx * t, dot.y - dy * t) : ℝ × ℝ).1 =
          dot.x - dx * t := rfl
      have hproj2 : ((dot.x - dx * t, dot.y - dy * t) : ℝ × ℝ).2 =
          dot.y - dy * t := rfl
      rw [hproj1, hproj2]
      have hgoal_eq : (dot.x - dx * t - ap.centerX) / ap.horizontalAxis *
            ((dot.x - dx * t - ap.centerX) / ap.horizontalAxis) +
          (dot.y - dy * t - ap.centerY) / ap.verticalAxis *
            ((dot.y - dy * t - ap.centerY) / ap.verticalAxis) =
          (xRel - dx * t) * (xRel - dx * t) / a2 +
            (yRel - dy * t) * (yRel - dy * t) / b2 := by
        rw [hxRel, hyRel, ha2, hb2]
        ring
      rw [hgoal_eq]
      exact le_of_eq (ellipse_sum_of_root xRel yRel dx dy t a2 b2
        ha2pos.ne.symm hb2pos.ne.symm hroot)

/-- A point moved along one axis by a parameter between the two slab
parameters stays between the two slab planes. -/
theorem coord_between (lo hi x dx t : ℝ) (hdx : dx ≠ 0) (hlohi : lo ≤ hi)
    (h1 : min ((lo - x) / dx) ((hi - x) / dx) ≤ t)
    (h2 : t ≤ max ((lo - x) / dx) ((hi - x) / dx)) :
    lo ≤ x + dx * t ∧ x + dx * t ≤ hi := by
  rcases lt_or_gt_of_ne hdx with hneg | hpos
  · have h21 : (hi - x) / dx ≤ (lo - x) / dx := by
      have hnum : 0 ≤ (lo - hi) / dx :=
        div_nonneg_iff.mpr (Or.inr ⟨by linarith, hneg.le⟩)
      have hsub : (lo - x) / dx - (hi - x) / dx = (lo - hi) / dx := by ring
      linarith
    rw [min_eq_right h21] at h1
    rw [max_eq_left h21] at h2
    have e1 : dx * ((hi - x) / dx) = hi - x := by field_simp
    have e2 : dx * ((lo - x) / dx) = lo - x := by field_simp
    have m1 := mul_le_mul_of_nonpos_left h1 hneg.le
    have m2 := mul_le_mul_of_nonpos_left h2 hneg.le
    constructor
    · linarith
    · linarith
  · have h12 : (lo - x) / dx ≤ (hi - x) / dx := by
      have hnum : 0 ≤ (hi - lo) / dx := div_nonneg (by linarith) hpos.le
      have hsub : (hi - x) / dx - (lo - x) / dx = (hi - lo) / dx := by ring
      linarith
    rw [min_eq_left h12] at h1
    rw [max_eq_right h12] at h2
    have e1 : dx * ((lo - x) / dx) = lo - x := by field_simp
    have e2 : dx * ((hi - x) / dx) = hi - x := by field_simp
    have m1 := mul_le_mul_of_nonneg_left h1 hpos.le
    have m2 := mul_le_mul_of_nonneg_left h2 hpos.le
    constructor
    · linarith
    · linarith

/-- The edge-flip of one coordinate lands between the two edges. -/
theorem flip_coord_between (v lo hi : ℝ) (h : lo ≤ hi) :
    lo ≤ (if v < lo then hi else if v > hi then lo else v) ∧
      (if v < lo then hi else if v > hi then lo else v) ≤ hi := by
  split_ifs with h1 h2
  · exact ⟨h, le_refl hi⟩
  · exact ⟨le_refl lo, h⟩
  · exact ⟨not_lt.mp h1, not_lt.mp h2⟩

/-- The rectangular simple reinsertion (out-of-range axes flipped to the
opposite edge) lands in the closed bounding box. -/
theorem getOppositePositionSimple_rect_mem_box (ap : Aperture)
    (hshape : ¬(ap.shape = ApertureShape.circle ∨
      ap.shape = ApertureShape.ellipse))
    (hh : 0 < ap.horizontalAxis) (hv : 0 < ap.verticalAxis) (dot : Dot) :
    ap.centerX - ap.horizontalAxis ≤ (ap.getOppositePositionSimple dot).1 ∧
    (ap.getOppositePositionSimple dot).1 ≤ ap.centerX + ap.horizontalAxis ∧
    ap.centerY - ap.verticalAxis ≤ (ap.getOppositePositionSimple dot).2 ∧
    (ap.getOppositePositionSimple dot).2 ≤ ap.centerY + ap.verticalAxis := by
  simp only [Aperture.getOppositePositionSimple, if_neg hshape]
  have hx := flip_coord_between dot.x (ap.centerX - ap.horizontalAxis)
    (ap.centerX + ap.horizontalAxis) (by linarith)
  have hy := flip_coord_between dot.y (ap.centerY - ap.verticalAxis)
    (ap.centerY + ap.verticalAxis) (by linarith)
  exact ⟨hx.1, hx.2, hy.1, hy.2⟩

/-- The rectangular ray-cast (slab) reinsertion lands in the closed
bounding box: the far slab intersection is on the boundary, and every
failed guard falls back to the simple policy. -/
theorem getOppositePosition_rect_mem_box (ap : Aperture)
    (hshape : ¬(ap.shape = ApertureShape.circle ∨
      ap.shape = ApertureShape.ellipse))
    (hh : 0 < ap.horizontalAxis) (hv : 0 < ap.verticalAxis) (dot : Dot)
    (odx ody : Option ℝ) :
    ap.centerX - ap.horizontalAxis ≤ (ap.getOppositePosition dot odx ody).1 ∧
    (ap.getOppositePosition dot odx ody).1 ≤ ap.centerX + ap.horizontalAxis ∧
    ap.centerY - ap.verticalAxis ≤ (ap.getOppositePosition dot odx ody).2 ∧
    (ap.getOppositePosition dot odx ody).2 ≤ ap.centerY + ap.verticalAxis := by
  have hsimple := getOppositePositionSimple_rect_mem_box ap hshape hh hv dot
  rcases odx with _ | dirX <;> rcases ody with _ | dirY
  · simp only [Aperture.getOppositePosition, if_neg hshape]
    exact hsimple
  · simp only [Aperture.getOppositePosition, if_neg hshape]
    exact hsimple
  · simp only [Aperture.getOppositePosition, if_neg hshape]
    exact hsimple
  · simp only [Aperture.getOppositePosition, if_neg hshape]
    split_ifs with h1 h2 h3
    · exact hsimple
    · exact hsimple
    · push_neg at h2
      set mag := Real.sqrt (dirX * dirX + dirY * dirY) with hmag
      set dx := -dirX / mag with hdx
      set dy := -dirY / mag with hdy
      set tx1 := (ap.centerX - ap.horizontalAxis - dot.x) / dx with htx1
      set tx2 := (ap.centerX + ap.horizontalAxis - dot.x) / dx with htx2
      set ty1 := (ap.centerY - ap.verticalAxis - dot.y) / dy with hty1
      set ty2 := (ap.centerY + ap.verticalAxis - dot.y) / dy with hty2
      set tEnter := max (min tx1 tx2) (min ty1 ty2) with hEnter
      set tExit := min (max tx1 tx2) (max ty1 ty2) with hExit
      have hminx : min tx1 tx2 ≤ tExit :=
        le_trans (le_max_left _ _) h3.2
      have hmaxx : tExit ≤ max tx1 tx2 := by
        rw [hExit]; exact min_le_left _ _
      have hminy : min ty1 ty2 ≤ tExit :=
        le_trans (le_max_right _ _) h3.2
      have hmaxy : tExit ≤ max ty1 ty2 := by
        rw [hExit]; exact min_le_right _ _
      have hx := coord_between (ap.centerX - ap.horizontalAxis)
        (ap.centerX + ap.horizontalAxis) dot.x dx tExit h2.1 (by linarith)
        hminx hmaxx
      have hy := coord_between (ap.centerY - ap.verticalAxis)
        (ap.centerY + ap.verticalAxis) dot.y dy tExit h2.2 (by linarith)
        hminy hmaxy
      exact ⟨hx.1, hx.2, hy.1, hy.2⟩
    · exact hsimple

/-- Claim C2 (amended): for every dot, role, aperture family with
positive extents, non-negative dot radius, recognized reinsertion mode
and outcome of the random draws, updateDot succeeds and the returned dot
is inside the aperture expanded by the dot radius — except under the
wrap mode, where the dot is only guaranteed to lie in the half-open
bounding box (which for rectangular apertures still implies the expanded
boundary, but for elliptical apertures does not). -/
theorem updateDot_position_invariant (dot : Dot)
    (distance deltaTimeMs maxDotLife : ℝ) (ap : Aperture)
    (reinsertType : String) (dotRadius : ℝ) (coherentDir : ℝ × ℝ)
    (reassignMovementTo : Option FrameMovement) (rand : UpdateRand)
    (hvalid : rand.valid) (hh : 0 < ap.horizontalAxis)
    (hv : 0 < ap.verticalAxis) (hr : 0 ≤ dotRadius)
    (hmode : reinsertType = "random" ∨ reinsertType = "opposite" ∨
      reinsertType = "oppositeSimple" ∨ reinsertType = "wrap") :
    ∃ d, updateDot dot distance deltaTimeMs maxDotLife ap reinsertType
        dotRadius coherentDir reassignMovementTo rand = Except.ok d ∧
      (¬ ap.isOutside d.x d.y dotRadius ∨
        (reinsertType = "wrap" ∧ inWrapBox ap d.x d.y)) := by
  obtain ⟨hv1, hv2, hv3, hv4, hv5, hv6, hv7, hv8, hv9, hv10, hv11, hv12⟩ :=
    hvalid
  simp only [updateDot]
  by_cases hexp : maxDotLife > 0 ∧ dot.lifeCount + deltaTimeMs ≥ maxDotLife
  · rw [if_pos hexp]
    exact ⟨_, rfl, Or.inl (getRandomPosition_not_outside ap rand.respawnR1
      rand.respawnR2 dotRadius hh hv hr hv1 hv2 hv3 hv4)⟩
  · rw [if_neg hexp]
    by_cases hmeth : methodAfterReassign dot reassignMovementTo =
      FrameMovement.randomTeleport
    · rw [if_pos hmeth]
      exact ⟨_, rfl, Or.inl (getRandomPosition_not_outside ap rand.teleportR1
        rand.teleportR2 dotRadius hh hv hr hv5 hv6 hv7 hv8)⟩
    · rw [if_neg hmeth]
      set method := methodAfterReassign dot reassignMovementTo with hmethod
      set randomDir := randomDirAfterReassign dot reassignMovementTo rand
        with hrd
      set moveDir := moveDirection method coherentDir randomDir rand with hmd
      set movedX := dot.x + moveDir.1 * distance with hmovedX
      set movedY := dot.y + moveDir.2 * distance with hmovedY
      by_cases hout : ap.isOutside movedX movedY dotRadius
      · rw [if_pos hout]
        rcases hmode with hm | hm | hm | hm <;> subst hm
        · rw [if_pos rfl]
          exact ⟨_, rfl, Or.inl (getRandomPosition_not_outside ap
            rand.reinsertR1 rand.reinsertR2 dotRadius hh hv hr hv9 hv10
            hv11 hv12)⟩
        · rw [if_neg (by decide), if_neg (by decide), if_pos rfl]
          refine ⟨_, rfl, Or.inl ?_⟩
          by_cases hshape : ap.shape = ApertureShape.circle ∨
            ap.shape = ApertureShape.ellipse
          · exact not_isOutside_elliptical_of_sum_le ap hshape _ _ dotRadius
              hh hv hr (getOppositePosition_elliptical_sum_le ap hshape hh hv
                _ (some moveDir.1) (some moveDir.2))
          · have hbox := getOppositePosition_rect_mem_box ap hshape hh hv
              { x := movedX, y := movedY, randomDirX := randomDir.1,
                randomDirY := randomDir.2,
                lifeCount := dot.lifeCount + deltaTimeMs,
                assignedMovement := method }
              (some moveDir.1) (some moveDir.2)
            exact not_isOutside_rect_of_mem_box ap hshape _ _ dotRadius hr
              hbox.1 hbox.2.1 hbox.2.2.1 hbox.2.2.2
        · rw [if_neg (by decide), if_pos rfl]
          refine ⟨_, rfl, Or.inl ?_⟩
          by_cases hshape : ap.shape = ApertureShape.circle ∨
            ap.shape = ApertureShape.ellipse
          · exact not_isOutside_elliptical_of_sum_le ap hshape _ _ dotRadius
              hh hv hr (getOppositePositionSimple_elliptical_sum_le ap hshape
                hh hv _)
          · have hbox := getOppositePositionSimple_rect_mem_box ap hshape hh hv
              { x := movedX, y := movedY, randomDirX := randomDir.1,
                randomDirY := randomDir.2,
                lifeCount := dot.lifeCount + deltaTimeMs,
                assignedMovement := method }
            exact not_isOutside_rect_of_mem_box ap hshape _ _ dotRadius hr
              hbox.1 hbox.2.1 hbox.2.2.1 hbox.2.2.2
        · rw [if_neg (by decide), if_neg (by decide), if_neg (by decide),
            if_pos rfl]
          exact ⟨_, rfl, Or.inr ⟨rfl, wrap_mem_box ap movedX movedY hh hv⟩⟩
      · rw [if_neg hout]
        exact ⟨_, rfl, Or.inl hout⟩

/-- Evaluation: truncation of 201/200. -/
theorem jsTrunc_201_200 : jsTrunc ((201:ℝ)/200) = 1 := by
  rw [jsTrunc, if_pos (by norm_num)]
  rw [Int.floor_eq_iff]
  constructor
  · norm_num
  · norm_num

/-- Evaluation: truncation of 199/200. -/
theorem jsTrunc_199_200 : jsTrunc ((199:ℝ)/200) = 0 := by
  rw [jsTrunc, if_pos (by norm_num)]
  rw [Int.floor_eq_iff]
  constructor
  · norm_num
  · norm_num

/-- Evaluation: truncation of 399/200. -/
theorem jsTrunc_399_200 : jsTrunc ((399:ℝ)/200) = 1 := by
  rw [jsTrunc, if_pos (by norm_num)]
  rw [Int.floor_eq_iff]
  constructor
  · norm_num
  · norm_num

/-- Evaluation: the JavaScript remainder 201 % 200. -/
theorem jsRem_201_200 : jsRem (201:ℝ) 200 = 1 := by
  rw [jsRem, jsTrunc_201_200]
  norm_num

/-- Evaluation: the JavaScript remainder 199 % 200. -/
theorem jsRem_199_200 : jsRem (199:ℝ) 200 = 199 := by
  rw [jsRem, jsTrunc_199_200]
  norm_num

/-- Evaluation: the JavaScript remainder 399 % 200. -/
theorem jsRem_399_200 : jsRem (399:ℝ) 200 = 199 := by
  rw [jsRem, jsTrunc_399_200]
  norm_num

/-- Evaluation: wrapping the point (101, 99) on the 200 x 200 circle
aperture centered at the origin gives (-99, 99). -/
theorem wrap_circle_101_99 :
    Aperture.wrap ⟨ApertureShape.circle, 200, 200, 0, 0⟩ 101 99 = (-99, 99) := by
  simp only [Aperture.wrap, horizontalAxis_mk, verticalAxis_circle]
  norm_num
  rw [jsRem_201_200, jsRem_199_200]
  norm_num
  rw [jsRem_201_200, jsRem_399_200]
  norm_num

/-- Claim C2, counterexample: on the circle aperture of radius 100
centered at the origin, a coherent dot at (99, 99) moving right by 2 is
wrapped (wrap mode, margin 0) to (-99, 99), which is still outside the
circle: the wrap policy wraps on the bounding box, so the claimed
invariant fails for elliptical apertures under wrap.  The dot neither
teleported nor respawned (maxLifetime is -1 and its role is coherent). -/
theorem updateDot_wrap_ellipse_counterexample :
    ∃ d, updateDot ⟨99, 99, 0, 0, 0, FrameMovement.coherent⟩ 2 16 (-1)
        ⟨ApertureShape.circle, 200, 200, 0, 0⟩ "wrap" 0 (1, 0) none
        ⟨0, 0, 0, 0, 0, 0, 0, 0⟩ = Except.ok d ∧
      d.x = -99 ∧ d.y = 99 ∧
      Aperture.isOutside ⟨ApertureShape.circle, 200, 200, 0, 0⟩ d.x d.y 0 := by
  have hmeth : methodAfterReassign ⟨99, 99, 0, 0, 0, FrameMovement.coherent⟩
      none = FrameMovement.coherent := rfl
  have hout : Aperture.isOutside ⟨ApertureShape.circle, 200, 200, 0, 0⟩
      (101:ℝ) 99 0 := by
    simp only [Aperture.isOutside, horizontalAxis_mk, verticalAxis_circle]
    norm_num
  have houtfin : Aperture.isOutside ⟨ApertureShape.circle, 200, 200, 0, 0⟩
      (-99 : ℝ) 99 0 := by
    simp only [Aperture.isOutside, horizontalAxis_mk, verticalAxis_circle]
    norm_num
  simp only [updateDot, hmeth, methodAfterReassign, randomDirAfterReassign,
    moveDirection, Option.getD]
  norm_num
  rw [if_neg (show ¬(FrameMovement.coherent = FrameMovement.randomTeleport)
    by decide)]
  rw [if_pos hout]
  rw [if_neg (show ¬("wrap" = "random") by decide),
    if_neg (show ¬("wrap" = "oppositeSimple") by decide),
    if_neg (show ¬("wrap" = "opposite") by decide)]
  refine ⟨_, rfl, ?_, ?_, ?_⟩
  · show (Aperture.wrap ⟨ApertureShape.circle, 200, 200, 0, 0⟩ 101 99).1 = -99
    rw [wrap_circle_101_99]
  · show (Aperture.wrap ⟨ApertureShape.circle, 200, 200, 0, 0⟩ 101 99).2 = 99
    rw [wrap_circle_101_99]
  · show Aperture.isOutside ⟨ApertureShape.circle, 200, 200, 0, 0⟩
      (Aperture.wrap ⟨ApertureShape.circle, 200, 200, 0, 0⟩ 101 99).1
      (Aperture.wrap ⟨ApertureShape.circle, 200, 200, 0, 0⟩ 101 99).2 0
    rw [wrap_circle_101_99]
    exact houtfin

/-- Claim C2, witness: a concrete invocation of the amended invariant on a
rectangle aperture with the random mode. -/
theorem updateDot_position_invariant_witness :
    ∃ d, updateDot ⟨0, 0, 0, 0, 0, FrameMovement.coherent⟩ 1 16 (-1)
        ⟨ApertureShape.rectangle, 2, 2, 0, 0⟩ "random" 0 (1, 0) none
        ⟨0, 0, 0, 0, 0, 0, 0, 0⟩ = Except.ok d ∧
      (¬ Aperture.isOutside ⟨ApertureShape.rectangle, 2, 2, 0, 0⟩ d.x d.y 0 ∨
        ("random" = "wrap" ∧
          inWrapBox ⟨ApertureShape.rectangle, 2, 2, 0, 0⟩ d.x d.y)) :=
  updateDot_position_invariant ⟨0, 0, 0, 0, 0, FrameMovement.coherent⟩ 1 16
    (-1) ⟨ApertureShape.rectangle, 2, 2, 0, 0⟩ "random" 0 (1, 0) none
    ⟨0, 0, 0, 0, 0, 0, 0, 0⟩
    (by rw [UpdateRand.valid]; norm_num)
    (by norm_num [horizontalAxis_mk]) (by norm_num [verticalAxis_rectangle])
    le_rfl (Or.inl rfl)

/-- Claim C9: updateDot raises an error exactly when its reinsertion
dispatch runs (no respawn, no teleport, and the moved dot is outside the
margin-expanded aperture) with a mode that is none of random, opposite,
oppositeSimple, wrap; for the four recognized modes no error is ever
raised — the ray-cast guards (missing or near-zero direction, negative
discriminant, non-positive root) silently fall back to the simple policy
inside getOppositePosition, which is total. -/
theorem updateDot_error_characterization (dot : Dot)
    (distance deltaTimeMs maxDotLife : ℝ) (ap : Aperture)
    (reinsertType : String) (dotRadius : ℝ) (coherentDir : ℝ × ℝ)
    (reassignMovementTo : Option FrameMovement) (rand : UpdateRand) :
    ((reinsertType = "random" ∨ reinsertType = "opposite" ∨
        reinsertType = "oppositeSimple" ∨ reinsertType = "wrap") →
      ∃ d, updateDot dot distance deltaTimeMs maxDotLife ap reinsertType
        dotRadius coherentDir reassignMovementTo rand = Except.ok d) ∧
    ((∃ e, updateDot dot distance deltaTimeMs maxDotLife ap reinsertType
        dotRadius coherentDir reassignMovementTo rand = Except.error e) ↔
      ((reinsertType ≠ "random" ∧ reinsertType ≠ "opposite" ∧
          reinsertType ≠ "oppositeSimple" ∧ reinsertType ≠ "wrap") ∧
        ¬ lifeExpired dot deltaTimeMs maxDotLife ∧
        methodAfterReassign dot reassignMovementTo ≠
          FrameMovement.randomTeleport ∧
        ap.isOutside
          (movedPosition dot distance coherentDir reassignMovementTo rand).1
          (movedPosition dot distance coherentDir reassignMovementTo rand).2
          dotRadius)) := by
  have hm1 : (movedPosition dot distance coherentDir reassignMovementTo
      rand).1 = dot.x + (moveDirection (methodAfterReassign dot
      reassignMovementTo) coherentDir (randomDirAfterReassign dot
      reassignMovementTo rand) rand).1 * distance := rfl
  have hm2 : (movedPosition dot distance coherentDir reassignMovementTo
      rand).2 = dot.y + (moveDirection (methodAfterReassign dot
      reassignMovementTo) coherentDir (randomDirAfterReassign dot
      reassignMovementTo rand) rand).2 * distance := rfl
  rw [lifeExpired, hm1, hm2]
  simp only [updateDot]
  by_cases hexp : maxDotLife > 0 ∧ dot.lifeCount + deltaTimeMs ≥ maxDotLife
  · rw [if_pos hexp]
    refine ⟨fun _ => ⟨_, rfl⟩, ?_⟩
    constructor
    · rintro ⟨e, he⟩
      exact absurd he (by simp)
    · rintro ⟨_, hnexp, _⟩
      exact absurd hexp hnexp
  · rw [if_neg hexp]
    by_cases hmeth : methodAfterReassign dot reassignMovementTo =
      FrameMovement.randomTeleport
    · rw [if_pos hmeth]
      refine ⟨fun _ => ⟨_, rfl⟩, ?_⟩
      constructor
      · rintro ⟨e, he⟩
        exact absurd he (by simp)
      · rintro ⟨_, _, hnmeth, _⟩
        exact absurd hmeth hnmeth
    · rw [if_neg hmeth]
      by_cases hout : ap.isOutside
          (dot.x + (moveDirection (methodAfterReassign dot reassignMovementTo)
            coherentDir (randomDirAfterReassign dot reassignMovementTo rand)
            rand).1 * distance)
          (dot.y + (moveDirection (methodAfterReassign dot reassignMovementTo)
            coherentDir (randomDirAfterReassign dot reassignMovementTo rand)
            rand).2 * distance) dotRadius
      · rw [if_pos hout]
        by_cases hrec : reinsertType = "random" ∨ reinsertType = "opposite" ∨
          reinsertType = "oppositeSimple" ∨ reinsertType = "wrap"
        · constructor
          · intro _
            rcases hrec with hm | hm | hm | hm <;> subst hm
            · rw [if_pos rfl]
              exact ⟨_, rfl⟩
            · rw [if_neg (show ¬("opposite" = "random") by decide),
                if_neg (show ¬("opposite" = "oppositeSimple") by decide),
                if_pos rfl]
              exact ⟨_, rfl⟩
            · rw [if_neg (show ¬("oppositeSimple" = "random") by decide),
                if_pos rfl]
              exact ⟨_, rfl⟩
            · rw [if_neg (show ¬("wrap" = "random") by decide),
                if_neg (show ¬("wrap" = "oppositeSimple") by decide),
                if_neg (show ¬("wrap" = "opposite") by decide),
                if_pos rfl]
              exact ⟨_, rfl⟩
          · constructor
            · rintro ⟨e, he⟩
              rcases hrec with hm | hm | hm | hm <;> subst hm
              · rw [if_pos rfl] at he
                exact absurd he (by simp)
              · rw [if_neg (show ¬("opposite" = "random") by decide),
                  if_neg (show ¬("opposite" = "oppositeSimple") by decide),
                  if_pos rfl] at he
                exact absurd he (by simp)
              · rw [if_neg (show ¬("oppositeSimple" = "random") by decide),
                  if_pos rfl] at he
                exact absurd he (by simp)
              · rw [if_neg (show ¬("wrap" = "random") by decide),
                  if_neg (show ¬("wrap" = "oppositeSimple") by decide),
                  if_neg (show ¬("wrap" = "opposite") by decide),
                  if_pos rfl] at he
                exact absurd he (by simp)
            · rintro ⟨⟨hne1, hne2, hne3, hne4⟩, _⟩
              rcases hrec with hm | hm | hm | hm
              · exact absurd hm hne1
              · exact absurd hm hne2
              · exact absurd hm hne3
              · exact absurd hm hne4
        · push_neg at hrec
          obtain ⟨hne1, hne2, hne3, hne4⟩ := hrec
          rw [if_neg hne1, if_neg hne3, if_neg hne2, if_neg hne4]
          constructor
          · intro hcontra
            rcases hcontra with hm | hm | hm | hm
            · exact absurd hm hne1
            · exact absurd hm hne2
            · exact absurd hm hne3
            · exact absurd hm hne4
          · constructor
            · intro _
              exact ⟨⟨hne1, hne2, hne3, hne4⟩, hexp, hmeth, hout⟩
            · intro _
              exact ⟨_, rfl⟩
      · rw [if_neg hout]
        refine ⟨fun _ => ⟨_, rfl⟩, ?_⟩
        constructor
        · rintro ⟨e, he⟩
          exact absurd he (by simp)
        · rintro ⟨_, _, _, hout2⟩
          exact absurd hout2 hout

/-- Claim C9, witness: a recognized mode on a concrete invocation yields a
successful result. -/
theorem updateDot_error_characterization_witness :
    ∃ d, updateDot ⟨0, 0, 0, 0, 0, FrameMovement.coherent⟩ 1 16 (-1)
      ⟨ApertureShape.rectangle, 2, 2, 0, 0⟩ "random" 0 (1, 0) none
      ⟨0, 0, 0, 0, 0, 0, 0, 0⟩ = Except.ok d :=
  (updateDot_error_characterization ⟨0, 0, 0, 0, 0, FrameMovement.coherent⟩
    1 16 (-1) ⟨ApertureShape.rectangle, 2, 2, 0, 0⟩ "random" 0 (1, 0) none
    ⟨0, 0, 0, 0, 0, 0, 0, 0⟩).1 (Or.inl rfl)
